import Mathlib

/-!
# Server resource of the UpCloud Terraform provider: interface reconciliation

A shallow embedding of `internal/server/interfaces.go` and of the `Update`
controller of `internal/server/resource.go`.

* Go `int` is `Int` (only equality tests and `i + 1` on slice positions occur).
* The field `Type` of the Go structs is written `Type_`.
* Go `error` is the inductive `Error`: `errors.New` and `fmt.Errorf` with a
  trailing `%w` verb.
* The API client (`service.Service`) is an explicit state machine `Service σ`:
  every remote call takes the remote state and returns its answer together
  with the next remote state.  A `World` pairs that state with the log of
  the calls issued so far and of their outcomes.
-/

set_option linter.dupNamespace false

namespace Server

/-! ## Library types (upcloud-go-api, terraform-plugin-framework) -/

/-- Go errors: `errors.New msg` and `fmt.Errorf (pre ++ "%w") inner`. -/
inductive Error where
  | new (msg : String)
  | wrapf (pre : String) (inner : Error)
  deriving DecidableEq, Repr

/-- The text of an error, as `err.Error()` renders it. -/
def Error.text : Error → String
  | .new msg => msg
  | .wrapf pre inner => pre ++ inner.text

/-- The error directly wrapped by this one, as `errors.Unwrap` returns it. -/
def Error.Unwrap : Error → Option Error
  | .new _ => none
  | .wrapf _ inner => some inner

/-- The three-valued `upcloud.Boolean`. -/
inductive Boolean where
  | Empty
  | True
  | False
  deriving DecidableEq, Repr

/-- Conversion `upcloud.FromBool`. -/
def FromBool (v : Bool) : Boolean := if v then Boolean.True else Boolean.False

/-- Conversion `Boolean.Bool()`. -/
def Boolean.Bool (b : Boolean) : Bool := decide (b = Boolean.True)

/-- The framework value `types.String`: null, unknown or a known string. -/
inductive TfString where
  | null
  | unknown
  | value (s : String)
  deriving DecidableEq, Repr

/-- Constructor `types.StringValue`. -/
def StringValue (s : String) : TfString := TfString.value s

/-- Constructor `types.StringUnknown`. -/
def StringUnknown : TfString := TfString.unknown

/-- Accessor `ValueString()`: the known string, and the empty string for null or unknown. -/
def TfString.ValueString : TfString → String
  | .value s => s
  | _ => ""

def TfString.IsNull : TfString → Bool
  | .null => true
  | _ => false

def TfString.IsUnknown : TfString → Bool
  | .unknown => true
  | _ => false

/-- The framework value `types.Bool`. -/
inductive TfBool where
  | null
  | unknown
  | value (b : Bool)
  deriving DecidableEq, Repr

/-- Constructor `types.BoolValue`. -/
def BoolValue (b : Bool) : TfBool := TfBool.value b

/-- Accessor `ValueBool()`: the known value, and `false` for null or unknown. -/
def TfBool.ValueBool : TfBool → Bool
  | .value b => b
  | _ => false

/-- Lifecycle state constant `upcloud.ServerStateStopped`. -/
def ServerStateStopped : String := "stopped"

/-- Lifecycle state constant `upcloud.ServerStateStarted`. -/
def ServerStateStarted : String := "started"

def IPAddressFamilyIPv4 : String := "IPv4"

def IPAddressFamilyIPv6 : String := "IPv6"

def NetworkTypePublic : String := "public"

def NetworkTypePrivate : String := "private"

/-- An assigned address of an observed interface (`upcloud.IPAddress`). -/
structure IPAddress where
  Address : String := ""
  Family : String := ""
  Floating : Boolean := Boolean.Empty
  deriving DecidableEq, Repr

/-- An observed interface (`upcloud.ServerInterface`). -/
structure ServerInterface where
  Index : Int := 0
  IPAddresses : List IPAddress := []
  MAC : String := ""
  Network : String := ""
  Type_ : String := ""
  Bootable : Boolean := Boolean.Empty
  SourceIPFiltering : Boolean := Boolean.Empty
  deriving DecidableEq, Repr

/-- The networking part of the observed server (`upcloud.ServerNetworking`). -/
structure ServerNetworking where
  Interfaces : List ServerInterface := []
  deriving DecidableEq, Repr

/-- The observed server (`upcloud.ServerDetails`), with the fields the resource reads. -/
structure ServerDetails where
  UUID : String := ""
  Hostname : String := ""
  Zone : String := ""
  State : String := ""
  Networking : ServerNetworking := {}
  deriving DecidableEq, Repr

/-- An address of a desired interface (`request.CreateNetworkInterfaceIPAddress`). -/
structure CreateNetworkInterfaceIPAddress where
  Family : String := ""
  Address : String := ""
  deriving DecidableEq, Repr

/-- A desired interface (`request.CreateNetworkInterfaceRequest`). -/
structure CreateNetworkInterfaceRequest where
  ServerUUID : String := ""
  Type_ : String := ""
  NetworkUUID : String := ""
  Index : Int := 0
  IPAddresses : List CreateNetworkInterfaceIPAddress := []
  SourceIPFiltering : Boolean := Boolean.Empty
  Bootable : Boolean := Boolean.Empty
  deriving DecidableEq, Repr

structure GetServerDetailsRequest where
  UUID : String
  deriving DecidableEq, Repr

structure DeleteNetworkInterfaceRequest where
  ServerUUID : String
  Index : Int
  deriving DecidableEq, Repr

structure ModifyServerRequest where
  UUID : String
  Hostname : String
  deriving DecidableEq, Repr

structure StopServerRequest where
  UUID : String
  deriving DecidableEq, Repr

structure StartServerRequest where
  UUID : String
  deriving DecidableEq, Repr

structure DeleteServerAndStoragesRequest where
  UUID : String
  deriving DecidableEq, Repr

structure WaitForServerStateRequest where
  UUID : String
  DesiredState : String
  deriving DecidableEq, Repr

/-- A zone of the remote catalog (`upcloud.Zone`). -/
structure Zone where
  ID : String
  deriving DecidableEq, Repr

/-- The remote zone catalog (`upcloud.Zones`). -/
structure Zones where
  Zones : List Zone
  deriving DecidableEq, Repr

structure CreateServerIPAddress where
  Family : String := ""
  deriving DecidableEq, Repr

structure CreateServerInterface where
  IPAddresses : List CreateServerIPAddress := []
  Network : String := ""
  Type_ : String := ""
  SourceIPFiltering : Boolean := Boolean.Empty
  Bootable : Boolean := Boolean.Empty
  deriving DecidableEq, Repr

structure CreateServerNetworking where
  Interfaces : List CreateServerInterface
  deriving DecidableEq, Repr

structure CreateServerStorageDevice where
  Action : String
  Size : Int
  Storage : String
  Tier : String
  Title : String
  deriving DecidableEq, Repr

structure CreateServerRequest where
  Hostname : String
  Zone : String
  Networking : Option CreateServerNetworking
  StorageDevices : List CreateServerStorageDevice
  Title : String
  Metadata : Boolean
  deriving DecidableEq, Repr

/-! ## The tracked model (`resource.go`) -/

structure networkInterfaceModel where
  IpAddressFamily : TfString := TfString.null
  IpAddress : TfString := TfString.null
  IpAddressFloating : TfBool := TfBool.null
  MacAddress : TfString := TfString.null
  Type_ : TfString := TfString.null
  Network : TfString := TfString.null
  SourceIpFiltering : TfBool := TfBool.null
  Bootable : TfBool := TfBool.null
  deriving DecidableEq, Repr

structure serverModel where
  ID : TfString := TfString.null
  Hostname : TfString := TfString.null
  Zone : TfString := TfString.null
  NetworkInterface : List networkInterfaceModel := []
  deriving DecidableEq, Repr

/-! ## `interfacesEquals` (`interfaces.go`) -/

/-- The partial equality of an observed and a desired interface. -/
def interfacesEquals (a : ServerInterface) (b : CreateNetworkInterfaceRequest) : Bool :=
  if a.Type_ ≠ b.Type_ then false
  else if a.Index ≠ b.Index then false
  else if h : a.IPAddresses.length ≠ 1 ∨ b.IPAddresses.length ≠ 1 then false
  else if a.IPAddresses[0].Family ≠ b.IPAddresses[0].Family then false
  else true

/-! ## The API client as a state machine -/

/-- The remote calls the resource issues. -/
inductive Call where
  | GetServerDetails (r : GetServerDetailsRequest)
  | DeleteNetworkInterface (r : DeleteNetworkInterfaceRequest)
  | CreateNetworkInterface (r : CreateNetworkInterfaceRequest)
  | ModifyServer (r : ModifyServerRequest)
  | VerifyServerStopped (r : StopServerRequest)
  | VerifyServerStarted (r : StartServerRequest)
  | GetZones
  | CreateServer (r : CreateServerRequest)
  | WaitForServerState (r : WaitForServerStateRequest)
  | DeleteServerAndStorages (r : DeleteServerAndStoragesRequest)
  deriving DecidableEq, Repr

/-- One issued call with its outcome: `err = none` when the call succeeded. -/
structure Event where
  call : Call
  err : Option Error
  deriving DecidableEq, Repr

/-- The API client facade over a remote state `σ`.  `VerifyServerStopped` and
`VerifyServerStarted` are the helpers of `internal/utils`, whose source is not
part of the development: they are operations of the environment like the
calls of `service.Service`. -/
structure Service (σ : Type) where
  GetServerDetails : σ → GetServerDetailsRequest → Except Error ServerDetails × σ
  DeleteNetworkInterface : σ → DeleteNetworkInterfaceRequest → Option Error × σ
  CreateNetworkInterface : σ → CreateNetworkInterfaceRequest → Except Error ServerInterface × σ
  ModifyServer : σ → ModifyServerRequest → Except Error ServerDetails × σ
  VerifyServerStopped : σ → StopServerRequest → Option Error × σ
  VerifyServerStarted : σ → StartServerRequest → Option Error × σ
  GetZones : σ → Except Error Zones × σ
  CreateServer : σ → CreateServerRequest → Except Error ServerDetails × σ
  WaitForServerState : σ → WaitForServerStateRequest → Except Error ServerDetails × σ
  DeleteServerAndStorages : σ → DeleteServerAndStoragesRequest → Option Error × σ

/-- The remote state together with the log of the calls issued so far. -/
structure World (σ : Type) where
  remote : σ
  log : List Event

/-- The error of a Go `(value, error)` result. -/
def errOf {α : Type} : Except Error α → Option Error
  | .error e => some e
  | .ok _ => none

/-- Moves to the next remote state and appends one event to the log. -/
def World.record {σ : Type} (w : World σ) (s : σ) (c : Call) (e : Option Error) : World σ :=
  { remote := s, log := w.log ++ [{ call := c, err := e }] }

def callGetServerDetails {σ : Type} (svc : Service σ) (w : World σ) (r : GetServerDetailsRequest) :
    Except Error ServerDetails × World σ :=
  ((svc.GetServerDetails w.remote r).1,
    w.record (svc.GetServerDetails w.remote r).2 (Call.GetServerDetails r)
      (errOf (svc.GetServerDetails w.remote r).1))

def callDeleteNetworkInterface {σ : Type} (svc : Service σ) (w : World σ)
    (r : DeleteNetworkInterfaceRequest) : Option Error × World σ :=
  ((svc.DeleteNetworkInterface w.remote r).1,
    w.record (svc.DeleteNetworkInterface w.remote r).2 (Call.DeleteNetworkInterface r)
      (svc.DeleteNetworkInterface w.remote r).1)

def callCreateNetworkInterface {σ : Type} (svc : Service σ) (w : World σ)
    (r : CreateNetworkInterfaceRequest) : Except Error ServerInterface × World σ :=
  ((svc.CreateNetworkInterface w.remote r).1,
    w.record (svc.CreateNetworkInterface w.remote r).2 (Call.CreateNetworkInterface r)
      (errOf (svc.CreateNetworkInterface w.remote r).1))

def callModifyServer {σ : Type} (svc : Service σ) (w : World σ) (r : ModifyServerRequest) :
    Except Error ServerDetails × World σ :=
  ((svc.ModifyServer w.remote r).1,
    w.record (svc.ModifyServer w.remote r).2 (Call.ModifyServer r)
      (errOf (svc.ModifyServer w.remote r).1))

def callVerifyServerStopped {σ : Type} (svc : Service σ) (w : World σ) (r : StopServerRequest) :
    Option Error × World σ :=
  ((svc.VerifyServerStopped w.remote r).1,
    w.record (svc.VerifyServerStopped w.remote r).2 (Call.VerifyServerStopped r)
      (svc.VerifyServerStopped w.remote r).1)

def callVerifyServerStarted {σ : Type} (svc : Service σ) (w : World σ) (r : StartServerRequest) :
    Option Error × World σ :=
  ((svc.VerifyServerStarted w.remote r).1,
    w.record (svc.VerifyServerStarted w.remote r).2 (Call.VerifyServerStarted r)
      (svc.VerifyServerStarted w.remote r).1)

def callGetZones {σ : Type} (svc : Service σ) (w : World σ) : Except Error Zones × World σ :=
  ((svc.GetZones w.remote).1,
    w.record (svc.GetZones w.remote).2 Call.GetZones (errOf (svc.GetZones w.remote).1))

def callCreateServer {σ : Type} (svc : Service σ) (w : World σ) (r : CreateServerRequest) :
    Except Error ServerDetails × World σ :=
  ((svc.CreateServer w.remote r).1,
    w.record (svc.CreateServer w.remote r).2 (Call.CreateServer r)
      (errOf (svc.CreateServer w.remote r).1))

def callWaitForServerState {σ : Type} (svc : Service σ) (w : World σ)
    (r : WaitForServerStateRequest) : Except Error ServerDetails × World σ :=
  ((svc.WaitForServerState w.remote r).1,
    w.record (svc.WaitForServerState w.remote r).2 (Call.WaitForServerState r)
      (errOf (svc.WaitForServerState w.remote r).1))

def callDeleteServerAndStorages {σ : Type} (svc : Service σ) (w : World σ)
    (r : DeleteServerAndStoragesRequest) : Option Error × World σ :=
  ((svc.DeleteServerAndStorages w.remote r).1,
    w.record (svc.DeleteServerAndStorages w.remote r).2 (Call.DeleteServerAndStorages r)
      (svc.DeleteServerAndStorages w.remote r).1)

/-! ## `reconfigureServerNetworkInterfaces` (`interfaces.go`) -/

/-- A Go `map[int]bool`: the value stored under a key, if any. -/
abbrev IntBoolMap := Int → Option Bool

/-- The map `make(map[int]bool)`. -/
def IntBoolMap.empty : IntBoolMap := fun _ => none

/-- The assignment `m[k] = v`. -/
def IntBoolMap.set (m : IntBoolMap) (k : Int) (v : Bool) : IntBoolMap :=
  fun j => if j = k then some v else m j

/-- The loop condition `len(reqs) > i && interfacesEquals(n, reqs[i])`. -/
def equalsAt (reqs : List CreateNetworkInterfaceRequest) (i : Nat) (n : ServerInterface) : Bool :=
  if h : reqs.length > i then interfacesEquals n reqs[i] else false

/-- The wrapped error of a failed delete. -/
def deleteError (index : Int) (err : Error) : Error :=
  Error.wrapf ("unable to delete interface #" ++ toString index ++ "; ") err

/-- The wrapped error of a failed create. -/
def createError (index : Int) (err : Error) : Error :=
  Error.wrapf ("unable to create interface #" ++ toString index ++ "; ") err

/-- The first loop ("flush interfaces"), from slice position `i` on: the rest
of the observed interfaces, the preserved indices so far and the world. -/
def flushInterfaces {σ : Type} (svc : Service σ) (uuid : String)
    (reqs : List CreateNetworkInterfaceRequest) :
    Nat → List ServerInterface → IntBoolMap → World σ → Except Error IntBoolMap × World σ
  | _, [], preserveInterfaces, w => (.ok preserveInterfaces, w)
  | i, n :: rest, preserveInterfaces, w =>
    if equalsAt reqs i n then
      flushInterfaces svc uuid reqs (i + 1) rest (preserveInterfaces.set n.Index true) w
    else
      match callDeleteNetworkInterface svc w { ServerUUID := uuid, Index := n.Index } with
      | (some err, w1) => (.error (deleteError n.Index err), w1)
      | (none, w1) => flushInterfaces svc uuid reqs (i + 1) rest preserveInterfaces w1

/-- The second loop ("apply interfaces from state"). -/
def applyInterfaces {σ : Type} (svc : Service σ) (preserveInterfaces : IntBoolMap) :
    List CreateNetworkInterfaceRequest → World σ → Option Error × World σ
  | [], w => (none, w)
  | r :: rest, w =>
    if (preserveInterfaces r.Index).isSome then
      applyInterfaces svc preserveInterfaces rest w
    else
      match callCreateNetworkInterface svc w r with
      | (.error err, w1) => (some (createError r.Index err), w1)
      | (.ok _, w1) => applyInterfaces svc preserveInterfaces rest w1

/-- The reconciler: the returned Go `error` (`none` is `nil`) and the world it leaves. -/
def reconfigureServerNetworkInterfaces {σ : Type} (svc : Service σ) (w : World σ)
    (data : serverModel) (reqs : List CreateNetworkInterfaceRequest) : Option Error × World σ :=
  match callGetServerDetails svc w { UUID := data.ID.ValueString } with
  | (.error err, w1) => (some err, w1)
  | (.ok s, w1) =>
    if s.State ≠ ServerStateStopped then
      (some (Error.new "server needs to be stopped to alter networks"), w1)
    else
      match flushInterfaces svc data.ID.ValueString reqs 0 s.Networking.Interfaces
          IntBoolMap.empty w1 with
      | (.error err, w2) => (some err, w2)
      | (.ok preserveInterfaces, w2) => applyInterfaces svc preserveInterfaces reqs w2

/-- The desired interface list of a tracked model; `none` is the nil model. -/
def buildNetworkInterfaceRequestFromServerModel (data : Option serverModel) :
    Except Error (List CreateNetworkInterfaceRequest) :=
  match data with
  | none => .error (Error.new "serverModel is nil")
  | some d =>
    .ok (d.NetworkInterface.enum.map fun (i, inter) =>
      { ServerUUID := d.ID.ValueString
        Index := (i : Int) + 1
        IPAddresses := [{ Family := inter.IpAddressFamily.ValueString
                          Address := inter.IpAddress.ValueString }]
        Type_ := inter.Type_.ValueString
        Bootable := FromBool inter.Bootable.ValueBool
        SourceIPFiltering := FromBool inter.SourceIpFiltering.ValueBool })

/-- The desired interface list of a model, empty when the build fails. -/
def desiredOf (data : serverModel) : List CreateNetworkInterfaceRequest :=
  match buildNetworkInterfaceRequestFromServerModel (some data) with
  | .ok reqs => reqs
  | .error _ => []

/-! ## The lifecycle controller (`resource.go`) -/

/-- A diagnostic of the framework (`diag.Diagnostic`). -/
inductive Diagnostic where
  | error (summary detail : String)
  | warning (summary detail : String)
  deriving DecidableEq, Repr

abbrev Diagnostics := List Diagnostic

def Diagnostic.isError : Diagnostic → Bool
  | .error _ _ => true
  | .warning _ _ => false

/-- The test `Diagnostics.HasError()`. -/
def Diagnostics.HasError (d : Diagnostics) : Bool := d.any Diagnostic.isError

/-- The decoding of a snapshot, `req.Plan.Get(ctx, &data)` or `req.State.Get(ctx, &data)`:
the diagnostics it returns and the model it fills. -/
structure Snapshot where
  diags : Diagnostics := []
  value : serverModel
  deriving DecidableEq, Repr

structure UpdateRequest where
  Plan : Snapshot
  State : Snapshot
  deriving DecidableEq, Repr

/-- The response of a controller: the diagnostics, and the model that
`resp.State.Set` wrote back (`none` while `resp.State.Set` was not reached). -/
structure Response where
  Diagnostics : Diagnostics
  State : Option serverModel
  deriving DecidableEq, Repr

/-- The body of the loop of `setServerValues` over the addresses of one interface. -/
def setAddress (networkInterface : networkInterfaceModel) (ip : IPAddress) : networkInterfaceModel :=
  { networkInterface with
    IpAddress := StringValue ip.Address
    IpAddressFamily := StringValue ip.Family
    IpAddressFloating := BoolValue ip.Floating.Bool }

/-- The tracked interface built from one observed interface in `setServerValues`. -/
def setInterfaceValues (iface : ServerInterface) : networkInterfaceModel :=
  iface.IPAddresses.foldl setAddress
    { MacAddress := StringValue iface.MAC
      Type_ := StringValue iface.Type_
      SourceIpFiltering := BoolValue iface.SourceIPFiltering.Bool
      Bootable := BoolValue iface.Bootable.Bool
      Network := StringValue iface.Network }

/-- The merge of the observed server into the tracked model: the returned
diagnostics and the model as the call leaves it (`none` is a nil pointer). -/
def setServerValues (data : Option serverModel) (details : Option ServerDetails) :
    Diagnostics × Option serverModel :=
  match data, details with
  | some _, some details =>
    ([], some
      { ID := StringValue details.UUID
        Hostname := StringValue details.Hostname
        Zone := StringValue details.Zone
        NetworkInterface := details.Networking.Interfaces.map setInterfaceValues })
  | data, _ => ([], data)

/-- The flag `isNetworkReconfigured` of `Update`.  The loop runs only when
the two lists have the same length, so both reads are in range. -/
def isNetworkReconfigured (dataState dataPlan : serverModel) : Bool :=
  if dataState.NetworkInterface.length ≠ dataPlan.NetworkInterface.length then true
  else (List.range dataState.NetworkInterface.length).any fun i =>
    decide ((dataState.NetworkInterface.getD i {}).IpAddressFamily.ValueString ≠
      (dataPlan.NetworkInterface.getD i {}).IpAddressFamily.ValueString)

/-- The part of `Update` from the `ModifyServer` call on. -/
def updateServer {σ : Type} (svc : Service σ) (diags : Diagnostics) (dataPlan : serverModel)
    (reconfigured : Bool) (w : World σ) : Response × World σ :=
  match callModifyServer svc w
      { UUID := dataPlan.ID.ValueString, Hostname := dataPlan.Hostname.ValueString } with
  | (.error err, w1) =>
    ({ Diagnostics := diags ++ [.error "Client Error"
        ("Unable to update server, got error: " ++ err.text)], State := none }, w1)
  | (.ok _, w1) =>
    match (if reconfigured then
        callVerifyServerStarted svc w1 { UUID := dataPlan.ID.ValueString } else (none, w1)) with
    | (some err, w2) =>
      ({ Diagnostics := diags ++ [.error "Client Error"
          ("Unable to start server, got error: " ++ err.text)], State := none }, w2)
    | (none, w2) =>
      match callGetServerDetails svc w2 { UUID := dataPlan.ID.ValueString } with
      | (.error err, w3) =>
        ({ Diagnostics := diags ++ [.error "Client Error"
            ("Unable to get server, got error: " ++ err.text)], State := none }, w3)
      | (.ok details, w3) =>
        ({ Diagnostics := diags ++ (setServerValues (some dataPlan) (some details)).1
           State := (setServerValues (some dataPlan) (some details)).2 }, w3)

/-- The part of `Update` that reconfigures the network: `none` when it
succeeded, and the diagnostic it added when it returned early. -/
def updateNetwork {σ : Type} (svc : Service σ) (dataPlan : serverModel) (w : World σ) :
    Option Diagnostic × World σ :=
  match buildNetworkInterfaceRequestFromServerModel (some dataPlan) with
  | .error err =>
    (some (.error "Unable to build network interface" ("got error: " ++ err.text)), w)
  | .ok net =>
    match callVerifyServerStopped svc w { UUID := dataPlan.ID.ValueString } with
    | (some err, w1) =>
      (some (.error "Client Error" ("Unable to stop server, got error: " ++ err.text)), w1)
    | (none, w1) =>
      match reconfigureServerNetworkInterfaces svc w1 dataPlan net with
      | (some err, w2) =>
        (some (.error "Client Error" ("Unable to refresh interfaces, got error: " ++ err.text)), w2)
      | (none, w2) => (none, w2)

/-- The controller `serverResource.Update`. -/
def Update {σ : Type} (svc : Service σ) (w : World σ) (req : UpdateRequest) : Response × World σ :=
  if req.Plan.diags.HasError then ({ Diagnostics := req.Plan.diags, State := none }, w)
  else if (req.Plan.diags ++ req.State.diags).HasError then
    ({ Diagnostics := req.Plan.diags ++ req.State.diags, State := none }, w)
  else if isNetworkReconfigured req.State.value req.Plan.value then
    match updateNetwork svc req.Plan.value w with
    | (some d, w1) =>
      ({ Diagnostics := req.Plan.diags ++ req.State.diags ++ [d], State := none }, w1)
    | (none, w1) => updateServer svc (req.Plan.diags ++ req.State.diags) req.Plan.value true w1
  else updateServer svc (req.Plan.diags ++ req.State.diags) req.Plan.value false w

/-! ## `validateZone` (`validators.go`) -/

/-- The error of `validateZone` for a zone that the catalog does not hold. -/
def zoneError (availableZones : List String) (zone : String) : Error :=
  Error.new ("expected zone to be one of [" ++ ", ".intercalate availableZones ++ "], got " ++ zone)

/-- The loop of `validateZone` over the rest of the catalog, with the
identifiers collected so far. -/
def validateZoneLoop (zone : String) : List Zone → List String → Option Error
  | [], availableZones => some (zoneError availableZones zone)
  | z :: rest, availableZones =>
    if z.ID = zone then none else validateZoneLoop zone rest (availableZones ++ [z.ID])

/-- The validator: the returned Go `error` and the world it leaves. -/
def validateZone {σ : Type} (svc : Service σ) (w : World σ) (zone : String) :
    Option Error × World σ :=
  match callGetZones svc w with
  | (.error err, w1) => (some err, w1)
  | (.ok zones, w1) => (validateZoneLoop zone zones.Zones [], w1)

/-! ## `Create`, `Read` and `Delete` (`resource.go`) -/

/-- The interfaces of the create-server request; `none` is the nil pointer. -/
def buildNetworkInterfaceRequestForServer (dataNetworkInterfaces : List networkInterfaceModel) :
    Option CreateServerNetworking × Diagnostics :=
  if dataNetworkInterfaces.length = 0 then (none, [])
  else
    (some { Interfaces := dataNetworkInterfaces.map fun inter =>
        { IPAddresses := [{ Family := inter.IpAddressFamily.ValueString }]
          Network := inter.Network.ValueString
          Type_ := inter.Type_.ValueString
          SourceIPFiltering := FromBool inter.SourceIpFiltering.ValueBool
          Bootable := FromBool inter.Bootable.ValueBool } }, [])

structure CreateRequest where
  Plan : Snapshot
  deriving DecidableEq, Repr

structure ReadRequest where
  State : Snapshot
  deriving DecidableEq, Repr

structure DeleteRequest where
  State : Snapshot
  deriving DecidableEq, Repr

/-- The request that `Create` sends for a planned model. -/
def serverReq (data : serverModel) (networking : Option CreateServerNetworking) :
    CreateServerRequest :=
  { Hostname := data.Hostname.ValueString
    Zone := data.Zone.ValueString
    Networking := networking
    StorageDevices := [{ Action := "clone", Size := 20,
                         Storage := "01000000-0000-4000-8000-000030240200",
                         Tier := "maxiops", Title := "Ubuntu-24-04-LTS" }]
    Title := data.Hostname.ValueString ++ " " ++ "(terraform resource)"
    Metadata := FromBool true }

/-- The part of `Create` after the zone was validated. -/
def createServer {σ : Type} (svc : Service σ) (diags : Diagnostics) (data : serverModel)
    (w : World σ) : Response × World σ :=
  if (diags ++ (buildNetworkInterfaceRequestForServer data.NetworkInterface).2).HasError then
    ({ Diagnostics := diags ++ (buildNetworkInterfaceRequestForServer data.NetworkInterface).2,
       State := none }, w)
  else
    match callCreateServer svc w
        (serverReq data (buildNetworkInterfaceRequestForServer data.NetworkInterface).1) with
    | (.error err, w1) =>
      ({ Diagnostics := diags ++ (buildNetworkInterfaceRequestForServer data.NetworkInterface).2 ++
          [.error "Client Error" ("Unable to create server, got error: " ++ err.text)],
         State := none }, w1)
    | (.ok details, w1) =>
      match callWaitForServerState svc w1
          { UUID := details.UUID, DesiredState := ServerStateStarted } with
      | (.error err, w2) =>
        ({ Diagnostics :=
            diags ++ (buildNetworkInterfaceRequestForServer data.NetworkInterface).2 ++
              [.error "Server Error" ("Unable to start server, got error: " ++ err.text)],
           State := none }, w2)
      | (.ok _, w2) =>
        ({ Diagnostics :=
            diags ++ (buildNetworkInterfaceRequestForServer data.NetworkInterface).2 ++
              (setServerValues (some data) (some details)).1
           State := (setServerValues (some data) (some details)).2 }, w2)

/-- The controller `serverResource.Create`. -/
def Create {σ : Type} (svc : Service σ) (w : World σ) (req : CreateRequest) : Response × World σ :=
  if req.Plan.diags.HasError then ({ Diagnostics := req.Plan.diags, State := none }, w)
  else
    match validateZone svc w req.Plan.value.Zone.ValueString with
    | (some err, w1) =>
      ({ Diagnostics := req.Plan.diags ++
          [.error "Zone Error" ("Unable to find provided zone, got error: " ++ err.text)],
         State := none }, w1)
    | (none, w1) => createServer svc req.Plan.diags req.Plan.value w1

/-- The controller `serverResource.Read`. -/
def Read {σ : Type} (svc : Service σ) (w : World σ) (req : ReadRequest) : Response × World σ :=
  if req.State.diags.HasError then ({ Diagnostics := req.State.diags, State := none }, w)
  else
    match callGetServerDetails svc w { UUID := req.State.value.ID.ValueString } with
    | (.error err, w1) =>
      ({ Diagnostics := req.State.diags ++
          [.error "Client Error" ("Unable to read server details, got error: " ++ err.text)],
         State := none }, w1)
    | (.ok details, w1) =>
      ({ Diagnostics := req.State.diags ++
          (setServerValues (some req.State.value) (some details)).1
         State := (setServerValues (some req.State.value) (some details)).2 }, w1)

/-- The controller `serverResource.Delete`. -/
def Delete {σ : Type} (svc : Service σ) (w : World σ) (req : DeleteRequest) : Response × World σ :=
  if req.State.diags.HasError then ({ Diagnostics := req.State.diags, State := none }, w)
  else
    match callVerifyServerStopped svc w { UUID := req.State.value.ID.ValueString } with
    | (some err, w1) =>
      ({ Diagnostics := req.State.diags ++
          [.error "Client Error" ("Unable to stop server, got error: " ++ err.text)],
         State := none }, w1)
    | (none, w1) =>
      match callDeleteServerAndStorages svc w1 { UUID := req.State.value.ID.ValueString } with
      | (some err, w2) =>
        ({ Diagnostics := req.State.diags ++
            [.error "Client Error" ("Unable to delete server, got error: " ++ err.text)],
           State := none }, w2)
      | (none, w2) =>
        ({ Diagnostics := req.State.diags ++ (setServerValues (some req.State.value) none).1
           State := (setServerValues (some req.State.value) none).2 }, w2)

/-! ## `resetValueWhenFamilyChanges` (`modifiers.go`) -/

/-- The request of a string plan modifier.  `StateFamily` and `ConfigFamily`
are the results of `req.State.GetAttribute` and `req.Config.GetAttribute` at
the sibling path `ip_address_family`: the diagnostics and the value read. -/
structure StringRequest where
  ConfigValue : TfString
  StateValue : TfString
  PlanValue : TfString
  StateFamily : Diagnostics × TfString
  ConfigFamily : Diagnostics × TfString
  deriving DecidableEq, Repr

structure StringResponse where
  PlanValue : TfString
  Diagnostics : Diagnostics := []
  deriving DecidableEq, Repr

/-- The comparison `Equal` of two `types.String`. -/
def TfString.Equal (a b : TfString) : Bool := decide (a = b)

/-- The plan modifier `resetValueWhenFamilyChanges.PlanModifyString`: the
response as the call leaves it. -/
def PlanModifyString (req : StringRequest) (resp : StringResponse) : StringResponse :=
  if !req.ConfigValue.IsNull && !req.ConfigValue.IsUnknown then
    { resp with PlanValue := req.ConfigValue }
  else if req.StateFamily.1.HasError then
    { resp with Diagnostics := resp.Diagnostics ++ req.StateFamily.1 }
  else if req.ConfigFamily.1.HasError then
    { resp with Diagnostics := resp.Diagnostics ++ req.ConfigFamily.1 }
  else if !req.StateFamily.2.Equal req.ConfigFamily.2 then
    { resp with PlanValue := StringUnknown }
  else
    { resp with PlanValue := req.StateValue }

/-! ## Vocabulary for statements about runs -/

/-- The log entry of a `GetServerDetails` call. -/
def getEvent (uuid : String) (e : Option Error) : Event :=
  { call := Call.GetServerDetails { UUID := uuid }, err := e }

/-- The log entry of a `DeleteNetworkInterface` call. -/
def deleteEvent (uuid : String) (index : Int) (e : Option Error) : Event :=
  { call := Call.DeleteNetworkInterface { ServerUUID := uuid, Index := index }, err := e }

/-- The log entry of a `CreateNetworkInterface` call. -/
def createEvent (r : CreateNetworkInterfaceRequest) (e : Option Error) : Event :=
  { call := Call.CreateNetworkInterface r, err := e }

/-- The log entry of a `ModifyServer` call. -/
def modifyEvent (uuid hostname : String) (e : Option Error) : Event :=
  { call := Call.ModifyServer { UUID := uuid, Hostname := hostname }, err := e }

/-- The log entry of a `VerifyServerStopped` call. -/
def stopEvent (uuid : String) (e : Option Error) : Event :=
  { call := Call.VerifyServerStopped { UUID := uuid }, err := e }

/-- The log entry of a `VerifyServerStarted` call. -/
def startEvent (uuid : String) (e : Option Error) : Event :=
  { call := Call.VerifyServerStarted { UUID := uuid }, err := e }

/-- The log entry of a `DeleteServerAndStorages` call. -/
def deleteServerEvent (uuid : String) (e : Option Error) : Event :=
  { call := Call.DeleteServerAndStorages { UUID := uuid }, err := e }

/-- The log entry of a `GetZones` call. -/
def getZonesEvent (e : Option Error) : Event := { call := Call.GetZones, err := e }

def Call.isCreateServer : Call → Bool
  | .CreateServer _ => true
  | _ => false

/-- The indices of the observed interfaces, from slice position `i` on, that
fail the loop condition of the first loop. -/
def flushPlan (reqs : List CreateNetworkInterfaceRequest) :
    Nat → List ServerInterface → List Int
  | _, [] => []
  | i, n :: rest =>
    if equalsAt reqs i n then flushPlan reqs (i + 1) rest
    else n.Index :: flushPlan reqs (i + 1) rest

/-- The map of preserved indices after the first loop has run to its end. -/
def preservePlan (reqs : List CreateNetworkInterfaceRequest) :
    Nat → List ServerInterface → IntBoolMap → IntBoolMap
  | _, [], m => m
  | i, n :: rest, m =>
    if equalsAt reqs i n then preservePlan reqs (i + 1) rest (m.set n.Index true)
    else preservePlan reqs (i + 1) rest m

/-- The desired interfaces whose index is not a key of the map. -/
def applyPlan (preserveInterfaces : IntBoolMap) (reqs : List CreateNetworkInterfaceRequest) :
    List CreateNetworkInterfaceRequest :=
  reqs.filter fun r => !(preserveInterfaces r.Index).isSome

/-- The calls of a reconciler run on a stopped server in which every remote
call succeeds: the fetch, the deletes of the first loop, the creates of the
second loop. -/
def successLog (uuid : String) (reqs : List CreateNetworkInterfaceRequest)
    (obs : List ServerInterface) : List Event :=
  getEvent uuid none ::
    (((flushPlan reqs 0 obs).map fun k => deleteEvent uuid k none) ++
      ((applyPlan (preservePlan reqs 0 obs IntBoolMap.empty) reqs).map fun r =>
        createEvent r none))

/-- The events logged between an earlier and a later world. -/
def issued {σ : Type} (w w2 : World σ) : List Event := w2.log.drop w.log.length

def Call.isDelete : Call → Bool
  | .DeleteNetworkInterface _ => true
  | _ => false

def Call.isCreate : Call → Bool
  | .CreateNetworkInterface _ => true
  | _ => false

def Call.isStop : Call → Bool
  | .VerifyServerStopped _ => true
  | _ => false

def Call.isStart : Call → Bool
  | .VerifyServerStarted _ => true
  | _ => false

def Call.isModify : Call → Bool
  | .ModifyServer _ => true
  | _ => false

/-- Whether the event is a delete of the index. -/
def Event.isDeleteOf (index : Int) (ev : Event) : Prop :=
  ∃ uuid, ev.call = Call.DeleteNetworkInterface { ServerUUID := uuid, Index := index }

/-- Whether the event is a create at the index. -/
def Event.isCreateOf (index : Int) (ev : Event) : Prop :=
  ∃ r, ev.call = Call.CreateNetworkInterface r ∧ r.Index = index

/-! ## The stop/start bracket in the words of the specification -/

/-- The sub-steps of an `Update` that reconfigures the network. -/
inductive SubStep where
  | stopServer
  | reconcileInterfaces
  | modifyHostname
  | startServer
  | refetchDetails
  deriving DecidableEq, Repr

/-- The fixed sequence of the sub-steps. -/
def bracket : List SubStep :=
  [.stopServer, .reconcileInterfaces, .modifyHostname, .startServer, .refetchDetails]

/-- One sub-step on the planned model: the error it ends with, if any, and the world it leaves. -/
def runSubStep {σ : Type} (svc : Service σ) (dataPlan : serverModel) :
    SubStep → World σ → Option Error × World σ
  | .stopServer, w => callVerifyServerStopped svc w { UUID := dataPlan.ID.ValueString }
  | .reconcileInterfaces, w =>
    reconfigureServerNetworkInterfaces svc w dataPlan (desiredOf dataPlan)
  | .modifyHostname, w =>
    (errOf (callModifyServer svc w
        { UUID := dataPlan.ID.ValueString, Hostname := dataPlan.Hostname.ValueString }).1,
      (callModifyServer svc w
        { UUID := dataPlan.ID.ValueString, Hostname := dataPlan.Hostname.ValueString }).2)
  | .startServer, w => callVerifyServerStarted svc w { UUID := dataPlan.ID.ValueString }
  | .refetchDetails, w =>
    (errOf (callGetServerDetails svc w { UUID := dataPlan.ID.ValueString }).1,
      (callGetServerDetails svc w { UUID := dataPlan.ID.ValueString }).2)

/-- Runs the sub-steps in order and cuts at the first one that fails: the
sub-steps that ran, each with its outcome, and the world they leave. -/
def runUntilFailure {σ : Type} (svc : Service σ) (dataPlan : serverModel) :
    List SubStep → World σ → List (SubStep × Option Error) × World σ
  | [], w => ([], w)
  | st :: rest, w =>
    match runSubStep svc dataPlan st w with
    | (some e, w1) => ([(st, some e)], w1)
    | (none, w1) =>
      ((st, none) :: (runUntilFailure svc dataPlan rest w1).1,
        (runUntilFailure svc dataPlan rest w1).2)

/-! ## A model of the interfaces of the remote server -/

/-- The interface that a successful create adds for a request. -/
def createdInterface (r : CreateNetworkInterfaceRequest) : ServerInterface :=
  { Index := r.Index, Type_ := r.Type_, Network := r.NetworkUUID,
    IPAddresses := r.IPAddresses.map fun a => { Family := a.Family, Address := a.Address },
    Bootable := r.Bootable, SourceIPFiltering := r.SourceIPFiltering }

/-- The remote interfaces after a delete of the index: the interface with that index is gone. -/
def remoteDelete (ifs : List ServerInterface) (index : Int) : List ServerInterface :=
  ifs.filter fun n => decide (n.Index ≠ index)

/-- The remote interfaces after a create: one interface is added at the index of the request. -/
def remoteCreate (ifs : List ServerInterface) (r : CreateNetworkInterfaceRequest) :
    List ServerInterface :=
  ifs ++ [createdInterface r]

/-- The remote interfaces after one logged call: a successful delete removes,
a successful create adds, every other call and every failed call changes nothing. -/
def remoteStep (ifs : List ServerInterface) (ev : Event) : List ServerInterface :=
  match ev.call, ev.err with
  | .DeleteNetworkInterface r, none => remoteDelete ifs r.Index
  | .CreateNetworkInterface r, none => remoteCreate ifs r
  | _, _ => ifs

/-- The remote interfaces after the logged calls, in order. -/
def replay (ifs : List ServerInterface) (evs : List Event) : List ServerInterface :=
  evs.foldl remoteStep ifs

/-! ## A remote service for concrete runs -/

/-- A service in which every call succeeds: `GetServerDetails` answers with
the remote state itself, the other calls leave it unchanged. -/
def okService : Service ServerDetails where
  GetServerDetails := fun s _ => (.ok s, s)
  DeleteNetworkInterface := fun s _ => (none, s)
  CreateNetworkInterface := fun s r => (.ok { Index := r.Index, Type_ := r.Type_ }, s)
  ModifyServer := fun s _ => (.ok s, s)
  VerifyServerStopped := fun s _ => (none, s)
  VerifyServerStarted := fun s _ => (none, s)
  GetZones := fun s => (.ok { Zones := [{ ID := s.Zone }] }, s)
  CreateServer := fun s _ => (.ok s, s)
  WaitForServerState := fun s _ => (.ok s, s)
  DeleteServerAndStorages := fun s _ => (none, s)

/-- A service in which every delete and every create fails with the given error. -/
def failingService (e : Error) : Service ServerDetails where
  GetServerDetails := fun s _ => (.ok s, s)
  DeleteNetworkInterface := fun s _ => (some e, s)
  CreateNetworkInterface := fun s _ => (.error e, s)
  ModifyServer := fun s _ => (.ok s, s)
  VerifyServerStopped := fun s _ => (none, s)
  VerifyServerStarted := fun s _ => (none, s)
  GetZones := fun s => (.ok { Zones := [{ ID := s.Zone }] }, s)
  CreateServer := fun s _ => (.ok s, s)
  WaitForServerState := fun s _ => (.ok s, s)
  DeleteServerAndStorages := fun s _ => (none, s)

/-- A service in which every call succeeds and whose zone catalog holds the
given identifiers, in order. -/
def catalogService (ids : List String) : Service ServerDetails :=
  { okService with GetZones := fun s => (.ok { Zones := ids.map Zone.mk }, s) }

/-- The request of the plan modifier for a computed address `10.0.0.1` with
no configured value, the family `IPv4` in the prior state and the given
configured family. -/
def addressRequest (configFamily : String) : StringRequest :=
  { ConfigValue := TfString.null, StateValue := StringValue "10.0.0.1",
    PlanValue := StringValue "10.0.0.1", StateFamily := ([], StringValue "IPv4"),
    ConfigFamily := ([], StringValue configFamily) }

/-- A service over the model of the remote interfaces: every call succeeds,
a delete removes the interface with the index and a create adds one. -/
def modelService : Service ServerDetails :=
  { okService with
    DeleteNetworkInterface := fun s r =>
      (none, { s with Networking := { Interfaces := remoteDelete s.Networking.Interfaces r.Index } })
    CreateNetworkInterface := fun s r =>
      (.ok (createdInterface r),
        { s with Networking := { Interfaces := remoteCreate s.Networking.Interfaces r } }) }

/-- An observed interface with one address. -/
def obsIf (index : Int) (family : String) (address mac : String) : ServerInterface :=
  { Index := index, Type_ := NetworkTypePublic, MAC := mac,
    IPAddresses := [{ Family := family, Address := address }] }

/-- A desired interface with one address. -/
def reqIf (index : Int) (family : String) (address : String) : CreateNetworkInterfaceRequest :=
  { Index := index, Type_ := NetworkTypePublic,
    IPAddresses := [{ Family := family, Address := address }],
    SourceIPFiltering := Boolean.True, Bootable := Boolean.False }

/-- A world with an empty log over the given remote server. -/
def freshWorld (s : ServerDetails) : World ServerDetails := { remote := s, log := [] }

/-- A running server with one public IPv4 interface. -/
def startedServer : ServerDetails :=
  { UUID := "srv", Hostname := "web", Zone := "fi-hel1", State := ServerStateStarted,
    Networking := { Interfaces := [obsIf 1 "IPv4" "10.0.0.1" "aa:01"] } }

/-- A stopped server with the given observed interfaces. -/
def stoppedServer (obs : List ServerInterface) : ServerDetails :=
  { UUID := "srv", Hostname := "web", Zone := "fi-hel1", State := ServerStateStopped,
    Networking := { Interfaces := obs } }

/-- A desired interface as `buildNetworkInterfaceRequestFromServerModel` builds it. -/
def builtIf (index : Int) (family : String) : CreateNetworkInterfaceRequest :=
  { reqIf index family "" with ServerUUID := "srv" }

/-- A desired interface of the tracked model. -/
def specIf (family : String) : networkInterfaceModel :=
  { IpAddressFamily := StringValue family, Type_ := StringValue NetworkTypePublic,
    SourceIpFiltering := BoolValue true, Bootable := BoolValue false }

/-- A tracked model of the server `srv` with the given interfaces. -/
def planOf (interfaces : List networkInterfaceModel) : serverModel :=
  { ID := StringValue "srv", Hostname := StringValue "web", Zone := StringValue "fi-hel1",
    NetworkInterface := interfaces }

/-- Observed interfaces 2 and 3 of a server whose interface 1 was removed. -/
def shiftedObserved : List ServerInterface :=
  [obsIf 2 "IPv4" "10.0.0.2" "aa:02", obsIf 3 "IPv4" "10.0.0.3" "aa:03"]

/-- Observed interfaces 1 and 2, both IPv4. -/
def twoObserved : List ServerInterface :=
  [obsIf 1 "IPv4" "10.0.0.1" "aa:01", obsIf 2 "IPv4" "10.0.0.2" "aa:02"]

/-- The run of the reconciler on the stopped server `srv` against a remote
service whose deletes and creates fail with the given error. -/
def failRun (e : Error) (obs : List ServerInterface) (desired : List networkInterfaceModel) :
    Option Error × World ServerDetails :=
  reconfigureServerNetworkInterfaces (failingService e) (freshWorld (stoppedServer obs))
    (planOf desired) (desiredOf (planOf desired))

/-- An `Update` from the previous interfaces to the desired ones on the
stopped server `srv`, against a remote service whose deletes and creates time out. -/
def timeoutUpdate (obs : List ServerInterface) (previous desired : List networkInterfaceModel) :
    Response × World ServerDetails :=
  Update (failingService (Error.new "timeout")) (freshWorld (stoppedServer obs))
    { Plan := { value := planOf desired }, State := { value := planOf previous } }

/-- The run of the reconciler on the stopped server `srv` with the given
observed interfaces, towards the given desired interfaces, every call succeeding. -/
def okRun (obs : List ServerInterface) (desired : List networkInterfaceModel) :
    Option Error × World ServerDetails :=
  reconfigureServerNetworkInterfaces okService (freshWorld (stoppedServer obs))
    (planOf desired) (desiredOf (planOf desired))

/-- The run of the reconciler on the stopped server `srv` against the model
of the remote interfaces. -/
def modelRun (obs : List ServerInterface) (desired : List networkInterfaceModel) :
    Option Error × World ServerDetails :=
  reconfigureServerNetworkInterfaces modelService (freshWorld (stoppedServer obs))
    (planOf desired) (desiredOf (planOf desired))

/-! ## The equivalence test -/

theorem interfacesEquals_true_iff (a : ServerInterface) (b : CreateNetworkInterfaceRequest) :
    interfacesEquals a b = true ↔
      a.Type_ = b.Type_ ∧ a.Index = b.Index ∧
        ∃ x y, a.IPAddresses = [x] ∧ b.IPAddresses = [y] ∧ x.Family = y.Family := by
  unfold interfacesEquals
  split_ifs with h1 h2 h3 h4
  · simp [h1]
  · simp [h2]
  · simp only [Bool.false_eq_true, false_iff, not_and, not_exists]
    rintro - - x y hx hy -
    rcases h3 with h3 | h3
    · exact h3 (by simp [hx])
    · exact h3 (by simp [hy])
  · simp only [Bool.false_eq_true, false_iff, not_and, not_exists]
    rintro - - x y hx hy hxy
    apply h4
    simp [hx, hy, hxy]
  · simp only [true_iff]
    push_neg at h1 h2 h3 h4
    obtain ⟨x, hx⟩ := List.length_eq_one.mp h3.1
    obtain ⟨y, hy⟩ := List.length_eq_one.mp h3.2
    refine ⟨h1, h2, x, y, hx, hy, ?_⟩
    simpa [hx, hy] using h4

theorem interfacesEquals_true_iff_families (a : ServerInterface)
    (b : CreateNetworkInterfaceRequest) :
    interfacesEquals a b = true ↔
      a.Type_ = b.Type_ ∧ a.Index = b.Index ∧
        ∃ f, a.IPAddresses.map (fun ip => ip.Family) = [f] ∧
          b.IPAddresses.map (fun ip => ip.Family) = [f] := by
  rw [interfacesEquals_true_iff]
  constructor
  · rintro ⟨h1, h2, x, y, hx, hy, hxy⟩
    exact ⟨h1, h2, x.Family, by simp [hx], by simp [hy, hxy]⟩
  · rintro ⟨h1, h2, f, hx, hy⟩
    rcases ha : a.IPAddresses with _ | ⟨x, _ | ⟨x2, xs⟩⟩ <;> rw [ha] at hx <;>
      simp only [List.map_nil, List.map_cons, List.cons.injEq, reduceCtorEq, and_true,
        and_false] at hx
    rcases hb : b.IPAddresses with _ | ⟨y, _ | ⟨y2, ys⟩⟩ <;> rw [hb] at hy <;>
      simp only [List.map_nil, List.map_cons, List.cons.injEq, reduceCtorEq, and_true,
        and_false] at hy
    exact ⟨h1, h2, x, y, rfl, rfl, hx.trans hy.symm⟩

/-- C1: `interfacesEquals a b` holds exactly when the types are equal, the
indices are equal, each side carries exactly one address and the families of
the two single addresses are equal; an interface with zero or several
addresses, on either side, is equal to nothing; and the result depends on
the two sides only through the type, the index and the list of the families
of the addresses (not through the address values, the floating flag, the MAC,
the network, the server identifier, the bootable or the source-IP-filtering
field). -/
theorem interfacesEquals_contract (a : ServerInterface) (b : CreateNetworkInterfaceRequest) :
    (interfacesEquals a b = true ↔
      a.Type_ = b.Type_ ∧ a.Index = b.Index ∧
        ∃ x y, a.IPAddresses = [x] ∧ b.IPAddresses = [y] ∧ x.Family = y.Family) ∧
    (a.IPAddresses.length ≠ 1 ∨ b.IPAddresses.length ≠ 1 → interfacesEquals a b = false) ∧
    (∀ (a2 : ServerInterface) (b2 : CreateNetworkInterfaceRequest),
      a2.Type_ = a.Type_ → a2.Index = a.Index →
      a2.IPAddresses.map (fun ip => ip.Family) = a.IPAddresses.map (fun ip => ip.Family) →
      b2.Type_ = b.Type_ → b2.Index = b.Index →
      b2.IPAddresses.map (fun ip => ip.Family) = b.IPAddresses.map (fun ip => ip.Family) →
      interfacesEquals a2 b2 = interfacesEquals a b) := by
  refine ⟨interfacesEquals_true_iff a b, ?_, ?_⟩
  · intro h
    rw [← Bool.not_eq_true, interfacesEquals_true_iff]
    rintro ⟨-, -, x, y, hx, hy, -⟩
    rcases h with h | h
    · exact h (by simp [hx])
    · exact h (by simp [hy])
  · intro a2 b2 h1 h2 h3 h4 h5 h6
    rw [Bool.eq_iff_iff, interfacesEquals_true_iff_families, interfacesEquals_true_iff_families,
      h1, h2, h3, h4, h5, h6]

/-- C1 at concrete interfaces: equal type, index and family with different
address, MAC and network are equal; two addresses on the observed side are not. -/
theorem interfacesEquals_contract_witness :
    interfacesEquals { obsIf 1 "IPv4" "10.0.0.1" "aa:bb" with Network := "net-1" }
        (reqIf 1 "IPv4" "") =
      interfacesEquals (obsIf 1 "IPv4" "" "") (reqIf 1 "IPv4" "10.9.9.9") ∧
    interfacesEquals
        { obsIf 1 "IPv4" "" "" with IPAddresses := [{ Family := "IPv4" }, { Family := "IPv6" }] }
        (reqIf 1 "IPv4" "") = false :=
  ⟨(interfacesEquals_contract (obsIf 1 "IPv4" "" "") (reqIf 1 "IPv4" "10.9.9.9")).2.2 _ _
      rfl rfl rfl rfl rfl rfl,
    (interfacesEquals_contract _ _).2.1 (Or.inl (by decide))⟩

/-! ## The two loops of the reconciler -/

theorem callDeleteNetworkInterface_log {σ : Type} (svc : Service σ) (w : World σ)
    (r : DeleteNetworkInterfaceRequest) :
    (callDeleteNetworkInterface svc w r).2.log =
      w.log ++ [deleteEvent r.ServerUUID r.Index (callDeleteNetworkInterface svc w r).1] := rfl

theorem callCreateNetworkInterface_log {σ : Type} (svc : Service σ) (w : World σ)
    (r : CreateNetworkInterfaceRequest) :
    (callCreateNetworkInterface svc w r).2.log =
      w.log ++ [createEvent r (errOf (callCreateNetworkInterface svc w r).1)] := rfl

theorem callGetServerDetails_log {σ : Type} (svc : Service σ) (w : World σ)
    (r : GetServerDetailsRequest) :
    (callGetServerDetails svc w r).2.log =
      w.log ++ [getEvent r.UUID (errOf (callGetServerDetails svc w r).1)] := rfl

/-- A first loop that runs to its end has issued one successful delete per
interface of `flushPlan`, in order, and returns the map of `preservePlan`. -/
theorem flushInterfaces_ok {σ : Type} (svc : Service σ) (uuid : String)
    (reqs : List CreateNetworkInterfaceRequest) (obs : List ServerInterface) :
    ∀ (i : Nat) (m : IntBoolMap) (w : World σ) (m2 : IntBoolMap) (w2 : World σ),
      flushInterfaces svc uuid reqs i obs m w = (.ok m2, w2) →
      m2 = preservePlan reqs i obs m ∧
        w2.log = w.log ++ (flushPlan reqs i obs).map fun k => deleteEvent uuid k none := by
  induction obs with
  | nil =>
    intro i m w m2 w2 h
    simp only [flushInterfaces, Prod.mk.injEq, Except.ok.injEq] at h
    simp [preservePlan, flushPlan, h.1, h.2]
  | cons n rest ih =>
    intro i m w m2 w2 h
    by_cases hq : equalsAt reqs i n = true
    · simp only [flushInterfaces, hq, if_true] at h
      simpa [preservePlan, flushPlan, hq] using ih _ _ _ _ _ h
    · have hlog := callDeleteNetworkInterface_log svc w { ServerUUID := uuid, Index := n.Index }
      simp only [flushInterfaces, hq, Bool.false_eq_true, if_false] at h
      rcases hc : callDeleteNetworkInterface svc w { ServerUUID := uuid, Index := n.Index } with
        ⟨_ | err, w1⟩
      · rw [hc] at h hlog
        obtain ⟨h1, h2⟩ := ih _ _ _ _ _ h
        simp only at hlog
        simp [preservePlan, flushPlan, hq, h1, h2, hlog]
      · rw [hc] at h
        simp at h

/-- A first loop that stops on an error has issued successful deletes and
then the failing one, whose error it returns wrapped. -/
theorem flushInterfaces_error {σ : Type} (svc : Service σ) (uuid : String)
    (reqs : List CreateNetworkInterfaceRequest) (obs : List ServerInterface) :
    ∀ (i : Nat) (m : IntBoolMap) (w : World σ) (e : Error) (w2 : World σ),
      flushInterfaces svc uuid reqs i obs m w = (.error e, w2) →
      ∃ (done : List Int) (index : Int) (err : Error),
        e = deleteError index err ∧
        w2.log = w.log ++ (done.map fun k => deleteEvent uuid k none) ++
          [deleteEvent uuid index (some err)] := by
  induction obs with
  | nil =>
    intro i m w e w2 h
    simp [flushInterfaces] at h
  | cons n rest ih =>
    intro i m w e w2 h
    by_cases hq : equalsAt reqs i n = true
    · simp only [flushInterfaces, hq, if_true] at h
      exact ih _ _ _ _ _ h
    · have hlog := callDeleteNetworkInterface_log svc w { ServerUUID := uuid, Index := n.Index }
      simp only [flushInterfaces, hq, Bool.false_eq_true, if_false] at h
      rcases hc : callDeleteNetworkInterface svc w { ServerUUID := uuid, Index := n.Index } with
        ⟨_ | err, w1⟩
      · rw [hc] at h hlog
        obtain ⟨done, index, err, h1, h2⟩ := ih _ _ _ _ _ h
        simp only at hlog
        exact ⟨n.Index :: done, index, err, h1, by simp [h2, hlog]⟩
      · rw [hc] at h hlog
        simp only [Prod.mk.injEq, Except.error.injEq] at h
        simp only at hlog
        exact ⟨[], n.Index, err, h.1.symm, by simp [← h.2, hlog]⟩

theorem applyPlan_cons (m : IntBoolMap) (r : CreateNetworkInterfaceRequest)
    (rest : List CreateNetworkInterfaceRequest) :
    applyPlan m (r :: rest) =
      if (m r.Index).isSome = true then applyPlan m rest else r :: applyPlan m rest := by
  unfold applyPlan
  rw [List.filter_cons]
  cases (m r.Index).isSome <;> simp

/-- A second loop that runs to its end has issued one successful create per
desired interface of `applyPlan`, in order. -/
theorem applyInterfaces_ok {σ : Type} (svc : Service σ) (m : IntBoolMap)
    (reqs : List CreateNetworkInterfaceRequest) :
    ∀ (w w2 : World σ), applyInterfaces svc m reqs w = (none, w2) →
      w2.log = w.log ++ (applyPlan m reqs).map fun r => createEvent r none := by
  induction reqs with
  | nil =>
    intro w w2 h
    simp only [applyInterfaces, Prod.mk.injEq, true_and] at h
    simp [applyPlan, h]
  | cons r rest ih =>
    intro w w2 h
    by_cases hq : (m r.Index).isSome = true
    · simp only [applyInterfaces, hq, if_true] at h
      rw [applyPlan_cons, if_pos hq]
      exact ih _ _ h
    · have hlog := callCreateNetworkInterface_log svc w r
      simp only [applyInterfaces, hq, Bool.false_eq_true, if_false] at h
      rcases hc : callCreateNetworkInterface svc w r with ⟨err | v, w1⟩
      · rw [hc] at h
        simp at h
      · rw [hc] at h hlog
        have h2 := ih _ _ h
        simp only [errOf] at hlog
        rw [applyPlan_cons, if_neg hq, h2, hlog]
        simp

/-- A second loop that stops on an error has issued successful creates and
then the failing one, whose error it returns wrapped. -/
theorem applyInterfaces_error {σ : Type} (svc : Service σ) (m : IntBoolMap)
    (reqs : List CreateNetworkInterfaceRequest) :
    ∀ (w : World σ) (e : Error) (w2 : World σ), applyInterfaces svc m reqs w = (some e, w2) →
      ∃ (done : List CreateNetworkInterfaceRequest) (r : CreateNetworkInterfaceRequest)
        (err : Error),
        e = createError r.Index err ∧
        w2.log = w.log ++ (done.map fun q => createEvent q none) ++
          [createEvent r (some err)] := by
  induction reqs with
  | nil =>
    intro w e w2 h
    simp [applyInterfaces] at h
  | cons r rest ih =>
    intro w e w2 h
    by_cases hq : (m r.Index).isSome = true
    · simp only [applyInterfaces, hq, if_true] at h
      exact ih _ _ _ h
    · have hlog := callCreateNetworkInterface_log svc w r
      simp only [applyInterfaces, hq, Bool.false_eq_true, if_false] at h
      rcases hc : callCreateNetworkInterface svc w r with ⟨err | v, w1⟩
      · rw [hc] at h hlog
        simp only [Prod.mk.injEq, Option.some.injEq] at h
        simp only [errOf] at hlog
        exact ⟨[], r, err, h.1.symm, by simp [← h.2, hlog]⟩
      · rw [hc] at h hlog
        obtain ⟨done, q, err, h1, h2⟩ := ih _ _ _ h
        simp only [errOf] at hlog
        exact ⟨r :: done, q, err, h1, by simp [h2, hlog]⟩

/-- The deleted indices are those of the observed interfaces that fail the loop condition. -/
theorem mem_flushPlan (reqs : List CreateNetworkInterfaceRequest) (k : Int)
    (obs : List ServerInterface) :
    ∀ (i : Nat), k ∈ flushPlan reqs i obs ↔
      ∃ (p : Nat) (n : ServerInterface),
        obs[p]? = some n ∧ equalsAt reqs (i + p) n = false ∧ n.Index = k := by
  induction obs with
  | nil => intro i; simp [flushPlan]
  | cons x rest ih =>
    intro i
    have hstep : ∀ p : Nat, i + 1 + p = i + (p + 1) := fun p => by omega
    by_cases hq : equalsAt reqs i x = true
    · simp only [flushPlan, hq, if_true]
      rw [ih]
      constructor
      · rintro ⟨p, n, hn, he, hk⟩
        exact ⟨p + 1, n, by simpa using hn, by rwa [← hstep], hk⟩
      · rintro ⟨p, n, hn, he, hk⟩
        cases p with
        | zero =>
          simp only [List.getElem?_cons_zero, Option.some.injEq] at hn
          subst hn
          simp only [Nat.add_zero] at he
          rw [hq] at he
          exact absurd he (by simp)
        | succ p => exact ⟨p, n, by simpa using hn, by rwa [hstep], hk⟩
    · simp only [flushPlan, hq, Bool.false_eq_true, if_false, List.mem_cons]
      rw [ih]
      constructor
      · rintro (h | ⟨p, n, hn, he, hk⟩)
        · exact ⟨0, x, by simp, by simpa using hq, h.symm⟩
        · exact ⟨p + 1, n, by simpa using hn, by rwa [← hstep], hk⟩
      · rintro ⟨p, n, hn, he, hk⟩
        cases p with
        | zero =>
          simp only [List.getElem?_cons_zero, Option.some.injEq] at hn
          subst hn
          exact Or.inl hk.symm
        | succ p => exact Or.inr ⟨p, n, by simpa using hn, by rwa [hstep], hk⟩

/-- The keys of the map after the first loop are the keys it had and the
indices of the observed interfaces that pass the loop condition. -/
theorem preservePlan_isSome (reqs : List CreateNetworkInterfaceRequest) (k : Int)
    (obs : List ServerInterface) :
    ∀ (i : Nat) (m : IntBoolMap), (preservePlan reqs i obs m k).isSome = true ↔
      (m k).isSome = true ∨ ∃ (p : Nat) (n : ServerInterface),
        obs[p]? = some n ∧ equalsAt reqs (i + p) n = true ∧ n.Index = k := by
  induction obs with
  | nil => intro i m; simp [preservePlan]
  | cons x rest ih =>
    intro i m
    have hstep : ∀ p : Nat, i + 1 + p = i + (p + 1) := fun p => by omega
    by_cases hq : equalsAt reqs i x = true
    · simp only [preservePlan, hq, if_true]
      rw [ih]
      constructor
      · rintro (h | ⟨p, n, hn, he, hk⟩)
        · by_cases hk : k = x.Index
          · exact Or.inr ⟨0, x, by simp, by simpa using hq, hk.symm⟩
          · left
            simpa [IntBoolMap.set, hk] using h
        · exact Or.inr ⟨p + 1, n, by simpa using hn, by rwa [← hstep], hk⟩
      · rintro (h | ⟨p, n, hn, he, hk⟩)
        · left
          by_cases hk : k = x.Index
          · simp [IntBoolMap.set, hk]
          · simpa [IntBoolMap.set, hk] using h
        · cases p with
          | zero =>
            simp only [List.getElem?_cons_zero, Option.some.injEq] at hn
            subst hn
            left
            simp [IntBoolMap.set, hk]
          | succ p => exact Or.inr ⟨p, n, by simpa using hn, by rwa [hstep], hk⟩
    · simp only [preservePlan, hq, Bool.false_eq_true, if_false]
      rw [ih]
      constructor
      · rintro (h | ⟨p, n, hn, he, hk⟩)
        · exact Or.inl h
        · exact Or.inr ⟨p + 1, n, by simpa using hn, by rwa [← hstep], hk⟩
      · rintro (h | ⟨p, n, hn, he, hk⟩)
        · exact Or.inl h
        · cases p with
          | zero =>
            simp only [List.getElem?_cons_zero, Option.some.injEq] at hn
            subst hn
            simp only [Nat.add_zero] at he
            exact absurd he hq
          | succ p => exact Or.inr ⟨p, n, by simpa using hn, by rwa [hstep], hk⟩

/-! ## Runs of the reconciler -/

/-- A run that returns no error fetched a stopped server and logged `successLog`. -/
theorem reconfigure_ok {σ : Type} (svc : Service σ) (w w2 : World σ) (data : serverModel)
    (reqs : List CreateNetworkInterfaceRequest)
    (h : reconfigureServerNetworkInterfaces svc w data reqs = (none, w2)) :
    ∃ s, (svc.GetServerDetails w.remote { UUID := data.ID.ValueString }).1 = .ok s ∧
      s.State = ServerStateStopped ∧
      w2.log = w.log ++ successLog data.ID.ValueString reqs s.Networking.Interfaces := by
  unfold reconfigureServerNetworkInterfaces at h
  have hlog := callGetServerDetails_log svc w { UUID := data.ID.ValueString }
  rcases hg : callGetServerDetails svc w { UUID := data.ID.ValueString } with ⟨err | s, w1⟩
  · rw [hg] at h
    simp at h
  · rw [hg] at h hlog
    simp only [errOf] at hlog
    by_cases hs : s.State = ServerStateStopped
    · simp only [hs, ne_eq, not_true_eq_false, if_false] at h
      rcases hf : flushInterfaces svc data.ID.ValueString reqs 0 s.Networking.Interfaces
        IntBoolMap.empty w1 with ⟨err | m, w3⟩
      · rw [hf] at h
        simp at h
      · rw [hf] at h
        obtain ⟨hm, hl⟩ := flushInterfaces_ok svc _ reqs _ _ _ _ _ _ hf
        have ha := applyInterfaces_ok svc m reqs _ _ h
        refine ⟨s, congrArg Prod.fst hg, hs, ?_⟩
        rw [ha, hl, hlog, hm]
        simp [successLog]
    · simp [hs] at h

/-- The shape of the log of any run: the fetch, successful deletes,
successful creates, and then at most one failing delete or create, whose
wrapped error the run returns. -/
theorem reconfigure_shape {σ : Type} (svc : Service σ) (w w2 : World σ) (data : serverModel)
    (reqs : List CreateNetworkInterfaceRequest) (r : Option Error)
    (h : reconfigureServerNetworkInterfaces svc w data reqs = (r, w2)) :
    ∃ (e0 : Option Error) (dels : List Int) (crs : List CreateNetworkInterfaceRequest)
      (tail : List Event),
      w2.log = w.log ++ (getEvent data.ID.ValueString e0 ::
        ((dels.map fun k => deleteEvent data.ID.ValueString k none) ++
          (crs.map fun q => createEvent q none))) ++ tail ∧
      (tail = [] ∨
        (∃ index err, tail = [deleteEvent data.ID.ValueString index (some err)] ∧
          r = some (deleteError index err)) ∨
        (∃ q err, tail = [createEvent q (some err)] ∧ r = some (createError q.Index err))) := by
  unfold reconfigureServerNetworkInterfaces at h
  have hlog := callGetServerDetails_log svc w { UUID := data.ID.ValueString }
  rcases hg : callGetServerDetails svc w { UUID := data.ID.ValueString } with ⟨err | s, w1⟩
  · rw [hg] at h hlog
    simp only [Prod.mk.injEq] at h
    simp only [errOf] at hlog
    exact ⟨some err, [], [], [], by simp [← h.2, hlog], Or.inl rfl⟩
  · rw [hg] at h hlog
    simp only [errOf] at hlog
    by_cases hs : s.State = ServerStateStopped
    · simp only [hs, ne_eq, not_true_eq_false, if_false] at h
      rcases hf : flushInterfaces svc data.ID.ValueString reqs 0 s.Networking.Interfaces
        IntBoolMap.empty w1 with ⟨err | m, w3⟩
      · rw [hf] at h
        simp only [Prod.mk.injEq] at h
        obtain ⟨done, index, e1, he, hl⟩ := flushInterfaces_error svc _ reqs _ _ _ _ _ _ hf
        refine ⟨none, done, [], [deleteEvent data.ID.ValueString index (some e1)], ?_,
          Or.inr (Or.inl ⟨index, e1, rfl, by rw [← h.1, he]⟩)⟩
        rw [← h.2, hl, hlog]
        simp
      · rw [hf] at h
        obtain ⟨-, hl⟩ := flushInterfaces_ok svc _ reqs _ _ _ _ _ _ hf
        rcases r with _ | e
        · have ha := applyInterfaces_ok svc m reqs _ _ h
          refine ⟨none, flushPlan reqs 0 s.Networking.Interfaces, applyPlan m reqs, [], ?_,
            Or.inl rfl⟩
          rw [ha, hl, hlog]
          simp
        · obtain ⟨done, q, e1, he, ha⟩ := applyInterfaces_error svc m reqs _ _ _ h
          refine ⟨none, flushPlan reqs 0 s.Networking.Interfaces, done,
            [createEvent q (some e1)], ?_,
            Or.inr (Or.inr ⟨q, e1, rfl, by rw [he]⟩)⟩
          rw [ha, hl, hlog]
          simp
    · simp only [hs, ne_eq, not_false_eq_true, if_true, Prod.mk.injEq] at h
      exact ⟨none, [], [], [], by simp [← h.2, hlog], Or.inl rfl⟩

theorem issued_of_log {σ : Type} (w w2 : World σ) (evs : List Event)
    (h : w2.log = w.log ++ evs) : issued w w2 = evs := by
  simp [issued, h]

/-- C2: when the fetch answers with a server whose lifecycle state is not
`stopped`, the reconciler returns the error "server needs to be stopped to
alter networks", the fetch is the only call it issued (no delete, no create),
and the remote state is the one the fetch left. -/
theorem reconfigure_not_stopped {σ : Type} (svc : Service σ) (w : World σ) (data : serverModel)
    (reqs : List CreateNetworkInterfaceRequest) (s : ServerDetails)
    (hget : (svc.GetServerDetails w.remote { UUID := data.ID.ValueString }).1 = .ok s)
    (hstate : s.State ≠ ServerStateStopped) :
    (reconfigureServerNetworkInterfaces svc w data reqs).1 =
        some (Error.new "server needs to be stopped to alter networks") ∧
      issued w (reconfigureServerNetworkInterfaces svc w data reqs).2 =
        [getEvent data.ID.ValueString none] ∧
      (∀ ev ∈ issued w (reconfigureServerNetworkInterfaces svc w data reqs).2,
        ev.call.isDelete = false ∧ ev.call.isCreate = false) ∧
      (reconfigureServerNetworkInterfaces svc w data reqs).2.remote =
        (svc.GetServerDetails w.remote { UUID := data.ID.ValueString }).2 := by
  have hrun : reconfigureServerNetworkInterfaces svc w data reqs =
      (some (Error.new "server needs to be stopped to alter networks"),
        (callGetServerDetails svc w { UUID := data.ID.ValueString }).2) := by
    unfold reconfigureServerNetworkInterfaces
    rcases hg : callGetServerDetails svc w { UUID := data.ID.ValueString } with ⟨r, w1⟩
    have hr : r = .ok s := by
      have := congrArg Prod.fst hg
      simp only [callGetServerDetails] at this
      rw [← this, hget]
    subst hr
    simp [hstate]
  have hlog := callGetServerDetails_log svc w { UUID := data.ID.ValueString }
  have herr : errOf (callGetServerDetails svc w { UUID := data.ID.ValueString }).1 = none := by
    simp only [callGetServerDetails, hget, errOf]
  rw [herr] at hlog
  have hiss := issued_of_log w _ _ hlog
  rw [hrun]
  refine ⟨rfl, hiss, ?_, rfl⟩
  intro ev hev
  simp only at hev
  rw [hiss, List.mem_singleton] at hev
  subst hev
  exact ⟨rfl, rfl⟩

/-- C2 on a started server: the run fails after the fetch alone. -/
theorem reconfigure_not_stopped_witness :
    (reconfigureServerNetworkInterfaces okService (freshWorld startedServer)
        { ID := StringValue "srv" } [reqIf 1 "IPv6" ""]).1 =
        some (Error.new "server needs to be stopped to alter networks") ∧
      issued (freshWorld startedServer)
        (reconfigureServerNetworkInterfaces okService (freshWorld startedServer)
          { ID := StringValue "srv" } [reqIf 1 "IPv6" ""]).2 = [getEvent "srv" none] :=
  ⟨(reconfigure_not_stopped okService (freshWorld startedServer) { ID := StringValue "srv" }
      [reqIf 1 "IPv6" ""] startedServer rfl (by decide)).1,
    (reconfigure_not_stopped okService (freshWorld startedServer) { ID := StringValue "srv" }
      [reqIf 1 "IPv6" ""] startedServer rfl (by decide)).2.1⟩

/-! ## Which interfaces a successful run touches -/

theorem equalsAt_true_iff (reqs : List CreateNetworkInterfaceRequest) (p : Nat)
    (n : ServerInterface) :
    equalsAt reqs p n = true ↔ ∃ r, reqs[p]? = some r ∧ interfacesEquals n r = true := by
  unfold equalsAt
  by_cases h : reqs.length > p
  · simp [h, List.getElem?_eq_getElem h]
  · have hnone : reqs[p]? = none := List.getElem?_eq_none (by omega)
    simp [h, hnone]

theorem successLog_isDeleteOf (uuid : String) (reqs : List CreateNetworkInterfaceRequest)
    (obs : List ServerInterface) (k : Int) :
    (∃ ev ∈ successLog uuid reqs obs, ev.isDeleteOf k) ↔ k ∈ flushPlan reqs 0 obs := by
  constructor
  · rintro ⟨ev, hev, u, hu⟩
    simp only [successLog, List.mem_cons, List.mem_append, List.mem_map] at hev
    rcases hev with rfl | ⟨j, hj, rfl⟩ | ⟨r, -, rfl⟩
    · simp [getEvent] at hu
    · simp only [deleteEvent, Call.DeleteNetworkInterface.injEq,
        DeleteNetworkInterfaceRequest.mk.injEq] at hu
      rw [← hu.2]
      exact hj
    · simp [createEvent] at hu
  · intro hk
    refine ⟨deleteEvent uuid k none, ?_, uuid, rfl⟩
    simp only [successLog, List.mem_cons, List.mem_append, List.mem_map]
    exact Or.inr (Or.inl ⟨k, hk, rfl⟩)

theorem successLog_isCreateOf (uuid : String) (reqs : List CreateNetworkInterfaceRequest)
    (obs : List ServerInterface) (k : Int) :
    (∃ ev ∈ successLog uuid reqs obs, ev.isCreateOf k) ↔
      ∃ r ∈ reqs, r.Index = k ∧
        (preservePlan reqs 0 obs IntBoolMap.empty k).isSome = false := by
  constructor
  · rintro ⟨ev, hev, q, hq, hqk⟩
    simp only [successLog, List.mem_cons, List.mem_append, List.mem_map] at hev
    rcases hev with rfl | ⟨j, -, rfl⟩ | ⟨r, hr, rfl⟩
    · simp [getEvent] at hq
    · simp [deleteEvent] at hq
    · simp only [createEvent, Call.CreateNetworkInterface.injEq] at hq
      subst hq
      simp only [applyPlan, List.mem_filter, Bool.not_eq_true_eq_eq_false] at hr
      exact ⟨r, hr.1, hqk, by rw [← hqk]; simpa using hr.2⟩
  · rintro ⟨r, hr, hrk, hp⟩
    refine ⟨createEvent r none, ?_, r, rfl, hrk⟩
    simp only [successLog, List.mem_cons, List.mem_append, List.mem_map]
    refine Or.inr (Or.inr ⟨r, ?_, rfl⟩)
    simp only [applyPlan, List.mem_filter]
    exact ⟨hr, by rw [hrk, hp]; rfl⟩

/-- In a list with pairwise distinct indices, the index determines the slice position. -/
theorem index_position (obs : List ServerInterface)
    (hd : (obs.map fun n => n.Index).Nodup) (p q : Nat) (n m : ServerInterface)
    (hp : obs[p]? = some n) (hq : obs[q]? = some m) (h : n.Index = m.Index) :
    p = q ∧ n = m := by
  obtain ⟨hp1, hp2⟩ := List.getElem?_eq_some.mp hp
  obtain ⟨hq1, hq2⟩ := List.getElem?_eq_some.mp hq
  have hpq : p = q := by
    have h1 : p < (obs.map fun n => n.Index).length := by simpa using hp1
    have h2 : q < (obs.map fun n => n.Index).length := by simpa using hq1
    have heq : (obs.map fun n => n.Index)[p] = (obs.map fun n => n.Index)[q] := by
      simp [hp2, hq2, h]
    exact (List.Nodup.getElem_inj_iff hd).mp heq
  subst hpq
  exact ⟨rfl, by rw [← hp2, ← hq2]⟩

/-- C3, as stated, fails: observed interfaces 2 and 3 sit at slice positions 0
and 1, the desired list carries indices 1, 2, 3, and the desired interface
with index 2 is equal to the observed interface 2 under `interfacesEquals`;
yet the run, in which every call succeeds, deletes index 2 and creates it again. -/
theorem reconfigure_misaligned_counterexample :
    desiredOf (planOf [specIf "IPv4", specIf "IPv4", specIf "IPv4"]) =
        [builtIf 1 "IPv4", builtIf 2 "IPv4", builtIf 3 "IPv4"] ∧
      interfacesEquals (obsIf 2 "IPv4" "10.0.0.2" "aa:02") (builtIf 2 "IPv4") = true ∧
      (reconfigureServerNetworkInterfaces okService (freshWorld (stoppedServer shiftedObserved))
        (planOf []) [builtIf 1 "IPv4", builtIf 2 "IPv4", builtIf 3 "IPv4"]).1 = none ∧
      issued (freshWorld (stoppedServer shiftedObserved))
        (reconfigureServerNetworkInterfaces okService (freshWorld (stoppedServer shiftedObserved))
          (planOf []) [builtIf 1 "IPv4", builtIf 2 "IPv4", builtIf 3 "IPv4"]).2 =
        [getEvent "srv" none, deleteEvent "srv" 2 none, deleteEvent "srv" 3 none,
          createEvent (builtIf 1 "IPv4") none, createEvent (builtIf 2 "IPv4") none,
          createEvent (builtIf 3 "IPv4") none] := by
  refine ⟨by decide, by decide, by decide, by decide⟩

/-- The request that `buildNetworkInterfaceRequestFromServerModel` builds at
slice position `q` carries index `q + 1`, the server identifier, the type of
the interface and one address with its family. -/
theorem desiredOf_getElem? (d : serverModel) (q : Nat) (r : CreateNetworkInterfaceRequest)
    (h : (desiredOf d)[q]? = some r) :
    ∃ inter, d.NetworkInterface[q]? = some inter ∧
      r = { ServerUUID := d.ID.ValueString
            Index := (q : Int) + 1
            IPAddresses := [{ Family := inter.IpAddressFamily.ValueString
                              Address := inter.IpAddress.ValueString }]
            Type_ := inter.Type_.ValueString
            Bootable := FromBool inter.Bootable.ValueBool
            SourceIPFiltering := FromBool inter.SourceIpFiltering.ValueBool } := by
  simp only [desiredOf, buildNetworkInterfaceRequestFromServerModel, List.getElem?_map,
    List.getElem?_enum, Option.map_map] at h
  rcases hi : d.NetworkInterface[q]? with _ | inter
  · rw [hi] at h
    simp at h
  · rw [hi] at h
    simp only [Option.map_some', Function.comp, Option.some.injEq] at h
    exact ⟨inter, rfl, h.symm⟩

theorem desiredOf_index (d : serverModel) (q : Nat) (r : CreateNetworkInterfaceRequest)
    (h : (desiredOf d)[q]? = some r) : r.Index = (q : Int) + 1 := by
  obtain ⟨inter, -, hr⟩ := desiredOf_getElem? d q r h
  rw [hr]

/-- C3 (amended): in a run on a stopped server that returns no error, with
pairwise distinct observed indices and a desired list carrying indices
1..N, the observed interface at slice position `p` is left untouched (no
delete and no create for its index) exactly when the desired interface at
the same slice position is equal to it under `interfacesEquals`, that is
when its index is `p + 1` and the desired interface carrying the same index
is equal to it; every other observed interface is deleted by its index. -/
theorem reconfigure_untouched_iff {σ : Type} (svc : Service σ) (w w2 : World σ)
    (data : serverModel) (reqs : List CreateNetworkInterfaceRequest) (s : ServerDetails)
    (hget : (svc.GetServerDetails w.remote { UUID := data.ID.ValueString }).1 = .ok s)
    (hrun : reconfigureServerNetworkInterfaces svc w data reqs = (none, w2))
    (hdistinct : (s.Networking.Interfaces.map fun n => n.Index).Nodup)
    (hidx : ∀ (q : Nat) (r : CreateNetworkInterfaceRequest),
      reqs[q]? = some r → r.Index = (q : Int) + 1)
    (p : Nat) (n : ServerInterface) (hp : s.Networking.Interfaces[p]? = some n) :
    s.State = ServerStateStopped ∧
    ((∀ ev ∈ issued w w2, ¬ ev.isDeleteOf n.Index ∧ ¬ ev.isCreateOf n.Index) ↔
      ∃ r, reqs[p]? = some r ∧ interfacesEquals n r = true) ∧
    ((∃ r, reqs[p]? = some r ∧ interfacesEquals n r = true) ↔
      n.Index = (p : Int) + 1 ∧ ∃ r ∈ reqs, r.Index = n.Index ∧ interfacesEquals n r = true) ∧
    ((¬ ∃ r, reqs[p]? = some r ∧ interfacesEquals n r = true) →
      deleteEvent data.ID.ValueString n.Index none ∈ issued w w2) := by
  obtain ⟨s2, hs2, hst, hlog⟩ := reconfigure_ok svc w w2 data reqs hrun
  have hss : s2 = s := by
    rw [hget] at hs2
    exact (Except.ok.inj hs2).symm
  subst hss
  have hiss := issued_of_log w w2 _ hlog
  rw [hiss]
  have hdel : ¬ equalsAt reqs p n = true →
      n.Index ∈ flushPlan reqs 0 s2.Networking.Interfaces := by
    intro hq
    rw [mem_flushPlan]
    exact ⟨p, n, hp, by simpa using hq, rfl⟩
  refine ⟨hst, ?_, ?_, ?_⟩
  · rw [← equalsAt_true_iff]
    constructor
    · intro h
      by_contra hq
      obtain ⟨ev, hev, hd⟩ := (successLog_isDeleteOf data.ID.ValueString reqs _ n.Index).mpr
        (hdel hq)
      exact (h ev hev).1 hd
    · intro hq ev hev
      constructor
      · intro hd
        have hk := (successLog_isDeleteOf data.ID.ValueString reqs _ n.Index).mp ⟨ev, hev, hd⟩
        rw [mem_flushPlan] at hk
        obtain ⟨p2, n2, hp2, he2, hk2⟩ := hk
        obtain ⟨hpp, hnn⟩ := index_position _ hdistinct p2 p n2 n hp2 hp hk2
        subst hpp
        subst hnn
        simp only [Nat.zero_add] at he2
        rw [hq] at he2
        exact absurd he2 (by simp)
      · intro hc
        obtain ⟨r, -, -, hpres⟩ :=
          (successLog_isCreateOf data.ID.ValueString reqs _ n.Index).mp ⟨ev, hev, hc⟩
        have hsome : (preservePlan reqs 0 s2.Networking.Interfaces IntBoolMap.empty
            n.Index).isSome = true := by
          rw [preservePlan_isSome]
          exact Or.inr ⟨p, n, hp, by simpa using hq, rfl⟩
        rw [hsome] at hpres
        exact absurd hpres (by simp)
  · constructor
    · rintro ⟨r, hr, he⟩
      have hri := hidx p r hr
      have hni := ((interfacesEquals_true_iff n r).mp he).2.1
      exact ⟨by rw [hni, hri], r, List.getElem?_mem hr, hni.symm, he⟩
    · rintro ⟨hn, r, hr, hri, he⟩
      obtain ⟨q, hq⟩ := List.mem_iff_getElem?.mp hr
      have hqi := hidx q r hq
      have hqp : q = p := by
        rw [hqi, hn] at hri
        omega
      subst hqp
      exact ⟨r, hq, he⟩
  · intro hq
    rw [← equalsAt_true_iff] at hq
    have hk := hdel hq
    simp only [successLog, List.mem_cons, List.mem_append, List.mem_map]
    exact Or.inr (Or.inl ⟨n.Index, hk, rfl⟩)

/-- C3 (amended) on observed interfaces 2 and 3 against three desired
interfaces: observed interface 2, at slice position 0, is not left untouched. -/
theorem reconfigure_untouched_iff_witness :
    ((∀ ev ∈ issued (freshWorld (stoppedServer shiftedObserved))
          (okRun shiftedObserved [specIf "IPv4", specIf "IPv4", specIf "IPv4"]).2,
        ¬ ev.isDeleteOf 2 ∧ ¬ ev.isCreateOf 2) ↔
      ∃ r, (desiredOf (planOf [specIf "IPv4", specIf "IPv4", specIf "IPv4"]))[0]? = some r ∧
        interfacesEquals (obsIf 2 "IPv4" "10.0.0.2" "aa:02") r = true) ∧
    ((∃ r, (desiredOf (planOf [specIf "IPv4", specIf "IPv4", specIf "IPv4"]))[0]? = some r ∧
        interfacesEquals (obsIf 2 "IPv4" "10.0.0.2" "aa:02") r = true) ↔
      (2 : Int) = ((0 : Nat) : Int) + 1 ∧
        ∃ r ∈ desiredOf (planOf [specIf "IPv4", specIf "IPv4", specIf "IPv4"]),
          r.Index = 2 ∧ interfacesEquals (obsIf 2 "IPv4" "10.0.0.2" "aa:02") r = true) :=
  ⟨(reconfigure_untouched_iff okService (freshWorld (stoppedServer shiftedObserved))
      (okRun shiftedObserved [specIf "IPv4", specIf "IPv4", specIf "IPv4"]).2
      (planOf [specIf "IPv4", specIf "IPv4", specIf "IPv4"])
      (desiredOf (planOf [specIf "IPv4", specIf "IPv4", specIf "IPv4"]))
      (stoppedServer shiftedObserved) rfl (Prod.ext (by decide) rfl) (by decide)
      (fun q r h => desiredOf_index _ q r h) 0 (obsIf 2 "IPv4" "10.0.0.2" "aa:02") rfl).2.1,
    (reconfigure_untouched_iff okService (freshWorld (stoppedServer shiftedObserved))
      (okRun shiftedObserved [specIf "IPv4", specIf "IPv4", specIf "IPv4"]).2
      (planOf [specIf "IPv4", specIf "IPv4", specIf "IPv4"])
      (desiredOf (planOf [specIf "IPv4", specIf "IPv4", specIf "IPv4"]))
      (stoppedServer shiftedObserved) rfl (Prod.ext (by decide) rfl) (by decide)
      (fun q r h => desiredOf_index _ q r h) 0 (obsIf 2 "IPv4" "10.0.0.2" "aa:02") rfl).2.2.1⟩

/-! ## A change of family at one position -/

/-- A filter that keeps exactly the element at position `i` returns that element alone. -/
theorem filter_eq_getElem?_toList {α : Type} (f : α → Bool) (l : List α) :
    ∀ (i : Nat), (∀ (q : Nat) (r : α), l[q]? = some r → (f r = true ↔ q = i)) →
      l.filter f = (l[i]?).toList := by
  induction l with
  | nil => intro i _; simp
  | cons x rest ih =>
    intro i h
    cases i with
    | zero =>
      have hx : f x = true := (h 0 x (by simp)).mpr rfl
      have hrest : rest.filter f = [] := by
        rw [List.filter_eq_nil_iff]
        intro r hr
        obtain ⟨q, hq⟩ := List.mem_iff_getElem?.mp hr
        have := h (q + 1) r (by simpa using hq)
        simp only [Nat.add_one_ne_zero, iff_false] at this
        exact this
      simp [List.filter_cons, hx, hrest]
    | succ i =>
      have hx : ¬ f x = true := fun hfx => by
        have := (h 0 x (by simp)).mp hfx
        omega
      have hrest := ih i (fun q r hq => by
        have := h (q + 1) r (by simpa using hq)
        simpa using this)
      simp [List.filter_cons, hx, hrest]

/-- When the loop condition fails at slice position `i` alone, the first loop
deletes the interface at that position alone. -/
theorem flushPlan_single (reqs : List CreateNetworkInterfaceRequest) (i : Nat)
    (obs : List ServerInterface) :
    ∀ (j : Nat), (∀ (p : Nat) (n : ServerInterface), obs[p]? = some n →
        (equalsAt reqs (j + p) n = true ↔ j + p ≠ i)) →
      flushPlan reqs j obs =
        if j ≤ i then ((obs[i - j]?).map fun n => n.Index).toList else [] := by
  induction obs with
  | nil => intro j _; simp [flushPlan]
  | cons x rest ih =>
    intro j h
    have hrest := ih (j + 1) (fun p n hp => by
      have := h (p + 1) n (by simpa using hp)
      rwa [show j + 1 + p = j + (p + 1) by omega])
    have hx := h 0 x (by simp)
    simp only [Nat.add_zero] at hx
    by_cases hji : j = i
    · subst hji
      have hq : ¬ equalsAt reqs j x = true := fun hq => (hx.mp hq) rfl
      simp [flushPlan, hq, hrest]
    · have hq : equalsAt reqs j x = true := hx.mpr hji
      simp only [flushPlan, hq, if_true, hrest]
      by_cases hlt : j + 1 ≤ i
      · have hle : j ≤ i := by omega
        have hsub : i - j = (i - (j + 1)) + 1 := by omega
        simp [hlt, hle, hsub]
      · have hle : ¬ j ≤ i := by omega
        simp [hlt, hle]

/-- Under the premises of a change of family at slice position `i` alone,
the loop condition holds at every slice position but `i`. -/
theorem family_change_equalsAt (reqs : List CreateNetworkInterfaceRequest)
    (obs : List ServerInterface) (i : Nat)
    (hlen : reqs.length = obs.length)
    (hobs : ∀ (p : Nat) (n : ServerInterface), obs[p]? = some n →
      n.Index = (p : Int) + 1 ∧ n.IPAddresses.length = 1)
    (hreq : ∀ (p : Nat) (r : CreateNetworkInterfaceRequest), reqs[p]? = some r →
      r.Index = (p : Int) + 1 ∧ r.IPAddresses.length = 1)
    (hagree : ∀ (p : Nat) (n : ServerInterface) (r : CreateNetworkInterfaceRequest),
      obs[p]? = some n → reqs[p]? = some r →
      n.Type_ = r.Type_ ∧
        (n.IPAddresses.map (fun ip => ip.Family) = r.IPAddresses.map (fun ip => ip.Family) ↔
          p ≠ i)) :
    ∀ (p : Nat) (n : ServerInterface), obs[p]? = some n →
      (equalsAt reqs (0 + p) n = true ↔ 0 + p ≠ i) := by
  intro p n hp
  simp only [Nat.zero_add]
  obtain ⟨hplt, -⟩ := List.getElem?_eq_some.mp hp
  have hr : reqs[p]? = some reqs[p] := List.getElem?_eq_getElem (by omega)
  obtain ⟨hty, hfam⟩ := hagree p n _ hp hr
  rw [equalsAt_true_iff]
  constructor
  · rintro ⟨r2, hr2, he⟩
    rw [hr] at hr2
    obtain rfl := Option.some.inj hr2
    obtain ⟨-, -, f, h1, h2⟩ := (interfacesEquals_true_iff_families n _).mp he
    exact hfam.mp (h1.trans h2.symm)
  · intro hne
    obtain ⟨x, hx⟩ := List.length_eq_one.mp (hobs p n hp).2
    refine ⟨_, hr, (interfacesEquals_true_iff_families n _).mpr
      ⟨hty, by rw [(hobs p n hp).1, (hreq p _ hr).1], x.Family, by simp [hx], ?_⟩⟩
    rw [← hfam.mpr hne]
    simp [hx]

/-- When the loop condition holds at every slice position but `i`, on
observed and desired interfaces that carry the indices 1..N, the second loop
creates the desired interface at position `i` alone. -/
theorem family_change_applyPlan (reqs : List CreateNetworkInterfaceRequest)
    (obs : List ServerInterface) (i : Nat) (r : CreateNetworkInterfaceRequest)
    (hlen : reqs.length = obs.length) (hri : reqs[i]? = some r)
    (hobs : ∀ (p : Nat) (n : ServerInterface), obs[p]? = some n → n.Index = (p : Int) + 1)
    (hreq : ∀ (p : Nat) (q : CreateNetworkInterfaceRequest), reqs[p]? = some q →
      q.Index = (p : Int) + 1)
    (hkey : ∀ (p : Nat) (n : ServerInterface), obs[p]? = some n →
      (equalsAt reqs (0 + p) n = true ↔ 0 + p ≠ i)) :
    applyPlan (preservePlan reqs 0 obs IntBoolMap.empty) reqs = [r] := by
  unfold applyPlan
  rw [filter_eq_getElem?_toList _ reqs i, hri]
  · rfl
  · intro q r2 hq
    obtain ⟨hqlt, -⟩ := List.getElem?_eq_some.mp hq
    have hqi := hreq q r2 hq
    have hpres := preservePlan_isSome reqs r2.Index obs 0 IntBoolMap.empty
    simp only [IntBoolMap.empty, Option.isSome_none, Bool.false_eq_true, false_or] at hpres
    by_cases hqeq : q = i
    · simp only [hqeq, iff_true, Bool.not_eq_true_eq_eq_false, Bool.not_eq_true']
      rw [← Bool.not_eq_true, hpres]
      rintro ⟨p, n, hp, he, hk⟩
      have hpi := (hkey p n hp).mp he
      have := hobs p n hp
      rw [hk, hqi] at this
      omega
    · simp only [hqeq, iff_false, Bool.not_eq_true_eq_eq_false, Bool.not_eq_true',
        Bool.not_eq_false]
      rw [hpres]
      have hqo : obs[q]? = some obs[q] := List.getElem?_eq_getElem (by omega)
      refine ⟨q, _, hqo, (hkey q _ hqo).mpr (by omega), ?_⟩
      rw [hobs q _ hqo, hqi]

/-- A first loop whose condition holds at every slice position issues no call. -/
theorem flushInterfaces_all_equal {σ : Type} (svc : Service σ) (uuid : String)
    (reqs : List CreateNetworkInterfaceRequest) (obs : List ServerInterface) :
    ∀ (j : Nat) (m : IntBoolMap) (w : World σ),
      (∀ (p : Nat) (n : ServerInterface), obs[p]? = some n → equalsAt reqs (j + p) n = true) →
      flushInterfaces svc uuid reqs j obs m w = (.ok (preservePlan reqs j obs m), w) := by
  induction obs with
  | nil => intro j m w _; rfl
  | cons x rest ih =>
    intro j m w h
    have hx : equalsAt reqs j x = true := by simpa using h 0 x (by simp)
    have hrest := ih (j + 1) (m.set x.Index true) w (fun p n hp => by
      have := h (p + 1) n (by simpa using hp)
      rwa [show j + 1 + p = j + (p + 1) by omega])
    simp only [flushInterfaces, preservePlan, hx, if_true, hrest]

/-- A first loop whose condition fails at slice position `i` alone issues the
delete of the interface at that position alone, and stops when it fails. -/
theorem flushInterfaces_single {σ : Type} (svc : Service σ) (uuid : String)
    (reqs : List CreateNetworkInterfaceRequest) (i : Nat) (obs : List ServerInterface) :
    ∀ (j : Nat) (m : IntBoolMap) (w : World σ) (n : ServerInterface),
      (∀ (p : Nat) (x : ServerInterface), obs[p]? = some x →
        (equalsAt reqs (j + p) x = true ↔ j + p ≠ i)) →
      j ≤ i → obs[i - j]? = some n →
      flushInterfaces svc uuid reqs j obs m w =
        match callDeleteNetworkInterface svc w { ServerUUID := uuid, Index := n.Index } with
        | (some err, w1) => (.error (deleteError n.Index err), w1)
        | (none, w1) => (.ok (preservePlan reqs j obs m), w1) := by
  induction obs with
  | nil => intro j m w n _ _ hn; simp at hn
  | cons x rest ih =>
    intro j m w n h hji hn
    have hx := h 0 x (by simp)
    simp only [Nat.add_zero] at hx
    have hstep : ∀ (p : Nat) (y : ServerInterface), rest[p]? = some y →
        (equalsAt reqs (j + 1 + p) y = true ↔ j + 1 + p ≠ i) := fun p y hp => by
      have := h (p + 1) y (by simpa using hp)
      rwa [show j + 1 + p = j + (p + 1) by omega]
    by_cases hjeq : j = i
    · subst hjeq
      simp only [Nat.sub_self, List.getElem?_cons_zero, Option.some.injEq] at hn
      subst hn
      have hq : equalsAt reqs j x = false := by
        rw [← Bool.not_eq_true]
        exact fun hq => (hx.mp hq) rfl
      have hall : ∀ (w1 : World σ),
          flushInterfaces svc uuid reqs (j + 1) rest m w1 =
            (.ok (preservePlan reqs (j + 1) rest m), w1) := fun w1 =>
        flushInterfaces_all_equal svc uuid reqs rest (j + 1) m w1 (fun p y hp =>
          (hstep p y hp).mpr (by omega))
      simp only [flushInterfaces, preservePlan, hq, Bool.false_eq_true, if_false, hall]
    · have hq : equalsAt reqs j x = true := hx.mpr hjeq
      have hsub : i - j = (i - (j + 1)) + 1 := by omega
      rw [hsub, List.getElem?_cons_succ] at hn
      have hrest := ih (j + 1) (m.set x.Index true) w n hstep (by omega) hn
      simp only [flushInterfaces, preservePlan, hq, if_true, hrest]

/-- The second loop acts on the desired interfaces of `applyPlan` alone. -/
theorem applyInterfaces_eq_plan {σ : Type} (svc : Service σ) (m : IntBoolMap)
    (reqs : List CreateNetworkInterfaceRequest) :
    ∀ w : World σ, applyInterfaces svc m reqs w =
      applyInterfaces svc IntBoolMap.empty (applyPlan m reqs) w := by
  induction reqs with
  | nil => intro w; rfl
  | cons r rest ih =>
    intro w
    by_cases hq : (m r.Index).isSome = true
    · rw [applyPlan_cons, if_pos hq]
      simp only [applyInterfaces, hq, if_true]
      exact ih w
    · rw [applyPlan_cons, if_neg hq]
      simp only [applyInterfaces, hq, Bool.false_eq_true, if_false, IntBoolMap.empty,
        Option.isSome_none]
      rcases callCreateNetworkInterface svc w r with ⟨err | v, w1⟩
      · rfl
      · exact ih w1

/-- C4, as stated, fails: on the scenario of the specification, desired
`[IPv4, IPv6]` against observed `[1:IPv4, 2:IPv4]` on a stopped server, a
delete that fails ends the run, which returns the wrapped error and issues
no create. -/
theorem reconfigure_family_change_counterexample :
    (failRun (Error.new "timeout") twoObserved [specIf "IPv4", specIf "IPv6"]).1 =
        some (deleteError 2 (Error.new "timeout")) ∧
      issued (freshWorld (stoppedServer twoObserved))
          (failRun (Error.new "timeout") twoObserved [specIf "IPv4", specIf "IPv6"]).2 =
        [getEvent "srv" none, deleteEvent "srv" 2 (some (Error.new "timeout"))] := by
  refine ⟨by decide, by decide⟩

/-- C4 (amended): on a stopped server whose observed interfaces sit at
indices 1..N in list order with one address each, and a desired list of the
same length (index `p + 1` and one address at slice position `p`) that agrees
with the observed list on the type everywhere and on the family everywhere
except at slice position `i`, the run issues, after the fetch, exactly one
delete, of index `i + 1`, followed, when that delete succeeds, by exactly one
create, of the desired interface at position `i`, and no other delete or
create; when the delete fails the run returns its wrapped error and issues no
create, and otherwise it returns the outcome of the create. -/
theorem reconfigure_family_change {σ : Type} (svc : Service σ) (w : World σ)
    (data : serverModel) (reqs : List CreateNetworkInterfaceRequest) (s : ServerDetails)
    (i : Nat)
    (hget : (svc.GetServerDetails w.remote { UUID := data.ID.ValueString }).1 = .ok s)
    (hstopped : s.State = ServerStateStopped)
    (hlen : reqs.length = s.Networking.Interfaces.length)
    (hi : i < reqs.length)
    (hobs : ∀ (p : Nat) (n : ServerInterface), s.Networking.Interfaces[p]? = some n →
      n.Index = (p : Int) + 1 ∧ n.IPAddresses.length = 1)
    (hreq : ∀ (p : Nat) (r : CreateNetworkInterfaceRequest), reqs[p]? = some r →
      r.Index = (p : Int) + 1 ∧ r.IPAddresses.length = 1)
    (hagree : ∀ (p : Nat) (n : ServerInterface) (r : CreateNetworkInterfaceRequest),
      s.Networking.Interfaces[p]? = some n → reqs[p]? = some r →
      n.Type_ = r.Type_ ∧
        (n.IPAddresses.map (fun ip => ip.Family) = r.IPAddresses.map (fun ip => ip.Family) ↔
          p ≠ i)) :
    ∃ r, reqs[i]? = some r ∧
      ((∃ e, issued w (reconfigureServerNetworkInterfaces svc w data reqs).2 =
            [getEvent data.ID.ValueString none,
              deleteEvent data.ID.ValueString ((i : Int) + 1) (some e)] ∧
          (reconfigureServerNetworkInterfaces svc w data reqs).1 =
            some (deleteError ((i : Int) + 1) e)) ∨
        (∃ e2, issued w (reconfigureServerNetworkInterfaces svc w data reqs).2 =
            [getEvent data.ID.ValueString none,
              deleteEvent data.ID.ValueString ((i : Int) + 1) none, createEvent r e2] ∧
          (reconfigureServerNetworkInterfaces svc w data reqs).1 =
            e2.map (createError ((i : Int) + 1)))) := by
  have hkey := family_change_equalsAt reqs s.Networking.Interfaces i hlen hobs hreq hagree
  have hilt : i < s.Networking.Interfaces.length := by omega
  have hni : s.Networking.Interfaces[i]? = some s.Networking.Interfaces[i] :=
    List.getElem?_eq_getElem hilt
  have hri : reqs[i]? = some reqs[i] := List.getElem?_eq_getElem hi
  have hidx : (s.Networking.Interfaces[i]).Index = (i : Int) + 1 := (hobs i _ hni).1
  have hridx : (reqs[i]).Index = (i : Int) + 1 := (hreq i _ hri).1
  have happly := family_change_applyPlan reqs s.Networking.Interfaces i reqs[i] hlen hri
    (fun p n hp => (hobs p n hp).1) (fun p q hq => (hreq p q hq).1) hkey
  refine ⟨reqs[i], hri, ?_⟩
  unfold reconfigureServerNetworkInterfaces
  have hlogg := callGetServerDetails_log svc w { UUID := data.ID.ValueString }
  rcases hg : callGetServerDetails svc w (GetServerDetailsRequest.mk data.ID.ValueString) with
    ⟨res, w1⟩
  have hres : res = .ok s := by
    have := congrArg Prod.fst hg
    simp only [callGetServerDetails] at this
    rw [← this, hget]
  subst hres
  rw [hg] at hlogg
  simp only [errOf] at hlogg
  simp only [hstopped, ne_eq, not_true_eq_false, if_false]
  rw [flushInterfaces_single svc data.ID.ValueString reqs i s.Networking.Interfaces 0
    IntBoolMap.empty w1 s.Networking.Interfaces[i] hkey (Nat.zero_le _) (by simp)]
  have hlogd := callDeleteNetworkInterface_log svc w1
    { ServerUUID := data.ID.ValueString, Index := (s.Networking.Interfaces[i]).Index }
  rcases hd : callDeleteNetworkInterface svc w1
    (DeleteNetworkInterfaceRequest.mk data.ID.ValueString (s.Networking.Interfaces[i]).Index) with
    ⟨_ | err, w2⟩
  · rw [hd] at hlogd
    simp only at hlogd
    simp only []
    rw [applyInterfaces_eq_plan, happly]
    have hlogc := callCreateNetworkInterface_log svc w2 reqs[i]
    simp only [applyInterfaces, IntBoolMap.empty, Option.isSome_none, Bool.false_eq_true,
      if_false]
    rcases hc : callCreateNetworkInterface svc w2 reqs[i] with ⟨err | v, w3⟩
    · rw [hc] at hlogc
      simp only [errOf] at hlogc
      refine Or.inr ⟨some err, issued_of_log w w3 _ ?_, ?_⟩
      · rw [hlogc, hlogd, hlogg, hidx]
        simp
      · simp [hridx]
    · rw [hc] at hlogc
      simp only [errOf] at hlogc
      refine Or.inr ⟨none, issued_of_log w w3 _ ?_, rfl⟩
      rw [hlogc, hlogd, hlogg, hidx]
      simp
  · rw [hd] at hlogd
    simp only at hlogd
    refine Or.inl ⟨err, issued_of_log w w2 _ ?_, ?_⟩
    · rw [hlogd, hlogg, hidx]
      simp
    · simp [hidx]

/-- C4 (amended) on the scenario of the specification with a remote service
whose calls succeed: desired `[IPv4, IPv6]` against observed `[1:IPv4, 2:IPv4]`
deletes index 2 and then creates it again with IPv6, or stops at the delete. -/
theorem reconfigure_family_change_witness :
    ∃ r, (desiredOf (planOf [specIf "IPv4", specIf "IPv6"]))[1]? = some r ∧
      ((∃ e, issued (freshWorld (stoppedServer twoObserved))
            (okRun twoObserved [specIf "IPv4", specIf "IPv6"]).2 =
            [getEvent "srv" none, deleteEvent "srv" (((1 : Nat) : Int) + 1) (some e)] ∧
          (okRun twoObserved [specIf "IPv4", specIf "IPv6"]).1 =
            some (deleteError (((1 : Nat) : Int) + 1) e)) ∨
        (∃ e2, issued (freshWorld (stoppedServer twoObserved))
            (okRun twoObserved [specIf "IPv4", specIf "IPv6"]).2 =
            [getEvent "srv" none, deleteEvent "srv" (((1 : Nat) : Int) + 1) none,
              createEvent r e2] ∧
          (okRun twoObserved [specIf "IPv4", specIf "IPv6"]).1 =
            e2.map (createError (((1 : Nat) : Int) + 1)))) :=
  reconfigure_family_change okService (freshWorld (stoppedServer twoObserved))
    (planOf [specIf "IPv4", specIf "IPv6"])
    (desiredOf (planOf [specIf "IPv4", specIf "IPv6"]))
    (stoppedServer twoObserved) 1 rfl rfl (by decide) (by decide)
    (by
      intro p n h
      rcases p with _ | _ | p
      · obtain rfl := Option.some.inj h
        exact ⟨rfl, rfl⟩
      · obtain rfl := Option.some.inj h
        exact ⟨rfl, rfl⟩
      · simp [stoppedServer, twoObserved] at h)
    (by
      intro p r h
      obtain ⟨inter, -, rfl⟩ := desiredOf_getElem? _ p r h
      exact ⟨rfl, rfl⟩)
    (by
      intro p n r hn hr
      rcases p with _ | _ | p
      · obtain rfl := Option.some.inj hn
        obtain rfl := Option.some.inj hr
        exact ⟨rfl, by decide⟩
      · obtain rfl := Option.some.inj hn
        obtain rfl := Option.some.inj hr
        exact ⟨rfl, by decide⟩
      · simp [stoppedServer, twoObserved] at hn)

/-! ## Desired lists longer or shorter than the observed list -/

/-- C5, as stated, fails: the desired list `[IPv6, IPv4]` is strictly longer
than the observed list `[1:IPv4]`, and the run, in which every call succeeds,
deletes the observed interface 1. -/
theorem reconfigure_longer_counterexample :
    [obsIf 1 "IPv4" "10.0.0.1" "aa:01"].length <
        (desiredOf (planOf [specIf "IPv6", specIf "IPv4"])).length ∧
      (okRun [obsIf 1 "IPv4" "10.0.0.1" "aa:01"] [specIf "IPv6", specIf "IPv4"]).1 = none ∧
      issued (freshWorld (stoppedServer [obsIf 1 "IPv4" "10.0.0.1" "aa:01"]))
          (okRun [obsIf 1 "IPv4" "10.0.0.1" "aa:01"] [specIf "IPv6", specIf "IPv4"]).2 =
        [getEvent "srv" none, deleteEvent "srv" 1 none, createEvent (builtIf 1 "IPv6") none,
          createEvent (builtIf 2 "IPv4") none] := by
  refine ⟨by decide, by decide, by decide⟩

/-- C5 (amended): with a desired list carrying indices 1..N that is strictly
longer than the observed list, a run that returns no error creates every
desired entry at a slice position beyond the observed length; the indices it
deletes are exactly those of the observed entries that are not equal, under
`interfacesEquals`, to the desired entry at their slice position; so it
deletes no observed entry when each is equal to the desired entry at its position. -/
theorem reconfigure_longer {σ : Type} (svc : Service σ) (w w2 : World σ)
    (data : serverModel) (reqs : List CreateNetworkInterfaceRequest) (s : ServerDetails)
    (hget : (svc.GetServerDetails w.remote { UUID := data.ID.ValueString }).1 = .ok s)
    (hrun : reconfigureServerNetworkInterfaces svc w data reqs = (none, w2))
    (hidx : ∀ (q : Nat) (r : CreateNetworkInterfaceRequest),
      reqs[q]? = some r → r.Index = (q : Int) + 1)
    (_hlonger : s.Networking.Interfaces.length < reqs.length) :
    (∀ (q : Nat) (r : CreateNetworkInterfaceRequest), reqs[q]? = some r →
      s.Networking.Interfaces.length ≤ q → createEvent r none ∈ issued w w2) ∧
    (∀ k : Int, (∃ ev ∈ issued w w2, ev.isDeleteOf k) ↔
      ∃ (p : Nat) (n : ServerInterface), s.Networking.Interfaces[p]? = some n ∧ n.Index = k ∧
        ¬ ∃ r, reqs[p]? = some r ∧ interfacesEquals n r = true) ∧
    ((∀ (p : Nat) (n : ServerInterface), s.Networking.Interfaces[p]? = some n →
        ∃ r, reqs[p]? = some r ∧ interfacesEquals n r = true) →
      ∀ ev ∈ issued w w2, ev.call.isDelete = false) := by
  obtain ⟨s2, hs2, -, hlog⟩ := reconfigure_ok svc w w2 data reqs hrun
  have hss : s2 = s := by
    rw [hget] at hs2
    exact (Except.ok.inj hs2).symm
  subst hss
  rw [issued_of_log w w2 _ hlog]
  have hdel : ∀ k : Int, k ∈ flushPlan reqs 0 s2.Networking.Interfaces ↔
      ∃ (p : Nat) (n : ServerInterface), s2.Networking.Interfaces[p]? = some n ∧ n.Index = k ∧
        ¬ ∃ r, reqs[p]? = some r ∧ interfacesEquals n r = true := by
    intro k
    rw [mem_flushPlan]
    constructor
    · rintro ⟨p, n, hp, he, hk⟩
      refine ⟨p, n, hp, hk, ?_⟩
      rw [← equalsAt_true_iff]
      simpa using he
    · rintro ⟨p, n, hp, hk, he⟩
      rw [← equalsAt_true_iff] at he
      exact ⟨p, n, hp, by simpa using he, hk⟩
  refine ⟨?_, ?_, ?_⟩
  · intro q r hq hle
    simp only [successLog, List.mem_cons, List.mem_append, List.mem_map]
    refine Or.inr (Or.inr ⟨r, ?_, rfl⟩)
    simp only [applyPlan, List.mem_filter, Bool.not_eq_true_eq_eq_false, Bool.not_eq_true']
    refine ⟨List.getElem?_mem hq, ?_⟩
    rw [← Bool.not_eq_true, preservePlan_isSome]
    rintro (h | ⟨p, n, hp, he, hk⟩)
    · simp [IntBoolMap.empty] at h
    · obtain ⟨hplt, -⟩ := List.getElem?_eq_some.mp hp
      simp only [Nat.zero_add] at he
      obtain ⟨r2, hr2, he2⟩ := (equalsAt_true_iff reqs p n).mp he
      have h1 := ((interfacesEquals_true_iff n r2).mp he2).2.1
      have h2 := hidx p r2 hr2
      have h3 := hidx q r hq
      rw [h1, h2, h3] at hk
      omega
  · intro k
    rw [successLog_isDeleteOf, hdel]
  · intro hall ev hev
    simp only [successLog, List.mem_cons, List.mem_append, List.mem_map] at hev
    rcases hev with rfl | ⟨k, hk, rfl⟩ | ⟨r, -, rfl⟩
    · rfl
    · obtain ⟨p, n, hp, -, hne⟩ := (hdel k).mp hk
      exact absurd (hall p n hp) hne
    · rfl

/-- C5 (amended) on observed `[1:IPv4]` against desired `[IPv6, IPv4]`: the
desired entry at slice position 1 is created. -/
theorem reconfigure_longer_witness :
    createEvent (builtIf 2 "IPv4") none ∈
      issued (freshWorld (stoppedServer [obsIf 1 "IPv4" "10.0.0.1" "aa:01"]))
        (okRun [obsIf 1 "IPv4" "10.0.0.1" "aa:01"] [specIf "IPv6", specIf "IPv4"]).2 :=
  (reconfigure_longer okService (freshWorld (stoppedServer [obsIf 1 "IPv4" "10.0.0.1" "aa:01"]))
    (okRun [obsIf 1 "IPv4" "10.0.0.1" "aa:01"] [specIf "IPv6", specIf "IPv4"]).2
    (planOf [specIf "IPv6", specIf "IPv4"])
    (desiredOf (planOf [specIf "IPv6", specIf "IPv4"]))
    (stoppedServer [obsIf 1 "IPv4" "10.0.0.1" "aa:01"]) rfl (Prod.ext (by decide) rfl)
    (fun q r h => desiredOf_index _ q r h) (by decide)).1 1 (builtIf 2 "IPv4") rfl (by decide)

/-- C6, as stated, fails: the desired list `[IPv6]` is strictly shorter than
the observed list `[1:IPv4, 2:IPv4]`, and the run, in which every call
succeeds, issues a create call (for index 1, after deleting it). -/
theorem reconfigure_shorter_counterexample :
    (desiredOf (planOf [specIf "IPv6"])).length < twoObserved.length ∧
      (okRun twoObserved [specIf "IPv6"]).1 = none ∧
      issued (freshWorld (stoppedServer twoObserved)) (okRun twoObserved [specIf "IPv6"]).2 =
        [getEvent "srv" none, deleteEvent "srv" 1 none, deleteEvent "srv" 2 none,
          createEvent (builtIf 1 "IPv6") none] := by
  refine ⟨by decide, by decide, by decide⟩

/-- C6 (amended): with a desired list strictly shorter than the observed
list, a run that returns no error deletes every observed entry at a slice
position beyond the desired length; it creates exactly the desired entries
whose index is not the index of an observed entry equal, under
`interfacesEquals`, to the desired entry at its slice position; so it issues
no create when every desired entry is equal to the observed entry at its position. -/
theorem reconfigure_shorter {σ : Type} (svc : Service σ) (w w2 : World σ)
    (data : serverModel) (reqs : List CreateNetworkInterfaceRequest) (s : ServerDetails)
    (hget : (svc.GetServerDetails w.remote { UUID := data.ID.ValueString }).1 = .ok s)
    (hrun : reconfigureServerNetworkInterfaces svc w data reqs = (none, w2))
    (_hshorter : reqs.length < s.Networking.Interfaces.length) :
    (∀ (p : Nat) (n : ServerInterface), s.Networking.Interfaces[p]? = some n →
      reqs.length ≤ p → deleteEvent data.ID.ValueString n.Index none ∈ issued w w2) ∧
    (∀ r : CreateNetworkInterfaceRequest, createEvent r none ∈ issued w w2 ↔
      r ∈ reqs ∧ ¬ ∃ (p : Nat) (n : ServerInterface) (r2 : CreateNetworkInterfaceRequest),
        s.Networking.Interfaces[p]? = some n ∧ reqs[p]? = some r2 ∧
          interfacesEquals n r2 = true ∧ n.Index = r.Index) ∧
    ((∀ (q : Nat) (r : CreateNetworkInterfaceRequest), reqs[q]? = some r →
        ∃ n, s.Networking.Interfaces[q]? = some n ∧ interfacesEquals n r = true) →
      ∀ ev ∈ issued w w2, ev.call.isCreate = false) := by
  obtain ⟨s2, hs2, -, hlog⟩ := reconfigure_ok svc w w2 data reqs hrun
  have hss : s2 = s := by
    rw [hget] at hs2
    exact (Except.ok.inj hs2).symm
  subst hss
  rw [issued_of_log w w2 _ hlog]
  have hcr : ∀ r : CreateNetworkInterfaceRequest,
      r ∈ applyPlan (preservePlan reqs 0 s2.Networking.Interfaces IntBoolMap.empty) reqs ↔
      r ∈ reqs ∧ ¬ ∃ (p : Nat) (n : ServerInterface) (r2 : CreateNetworkInterfaceRequest),
        s2.Networking.Interfaces[p]? = some n ∧ reqs[p]? = some r2 ∧
          interfacesEquals n r2 = true ∧ n.Index = r.Index := by
    intro r
    simp only [applyPlan, List.mem_filter, Bool.not_eq_true_eq_eq_false, Bool.not_eq_true']
    rw [← Bool.not_eq_true, preservePlan_isSome]
    simp only [IntBoolMap.empty, Option.isSome_none, Bool.false_eq_true, false_or, Nat.zero_add,
      equalsAt_true_iff]
    constructor
    · rintro ⟨hr, hno⟩
      exact ⟨hr, fun ⟨p, n, r2, hp, hr2, he, hk⟩ => hno ⟨p, n, hp, ⟨r2, hr2, he⟩, hk⟩⟩
    · rintro ⟨hr, hno⟩
      exact ⟨hr, fun ⟨p, n, hp, ⟨r2, hr2, he⟩, hk⟩ => hno ⟨p, n, r2, hp, hr2, he, hk⟩⟩
  refine ⟨?_, ?_, ?_⟩
  · intro p n hp hle
    simp only [successLog, List.mem_cons, List.mem_append, List.mem_map]
    refine Or.inr (Or.inl ⟨n.Index, ?_, rfl⟩)
    rw [mem_flushPlan]
    refine ⟨p, n, hp, ?_, rfl⟩
    rw [← Bool.not_eq_true, equalsAt_true_iff]
    rintro ⟨r, hr, -⟩
    obtain ⟨hlt, -⟩ := List.getElem?_eq_some.mp hr
    omega
  · intro r
    rw [← hcr]
    simp only [successLog, List.mem_cons, List.mem_append, List.mem_map]
    constructor
    · rintro (h | ⟨k, -, h⟩ | ⟨q, hq, h⟩)
      · simp [createEvent, getEvent] at h
      · simp [createEvent, deleteEvent] at h
      · simp only [createEvent, Event.mk.injEq, Call.CreateNetworkInterface.injEq,
          and_true] at h
        rw [← h]
        exact hq
    · intro h
      exact Or.inr (Or.inr ⟨r, h, rfl⟩)
  · intro hall ev hev
    simp only [successLog, List.mem_cons, List.mem_append, List.mem_map] at hev
    rcases hev with rfl | ⟨k, -, rfl⟩ | ⟨r, hr, rfl⟩
    · rfl
    · rfl
    · obtain ⟨hmem, hno⟩ := (hcr r).mp hr
      obtain ⟨q, hq⟩ := List.mem_iff_getElem?.mp hmem
      obtain ⟨n, hn, he⟩ := hall q r hq
      exact absurd ⟨q, n, r, hn, hq, he, ((interfacesEquals_true_iff n r).mp he).2.1⟩ hno

/-- C6 (amended) on observed `[1:IPv4, 2:IPv4]` against desired `[IPv6]`: the
observed entry at slice position 1 is deleted by its index 2. -/
theorem reconfigure_shorter_witness :
    deleteEvent "srv" 2 none ∈
      issued (freshWorld (stoppedServer twoObserved)) (okRun twoObserved [specIf "IPv6"]).2 :=
  (reconfigure_shorter okService (freshWorld (stoppedServer twoObserved))
    (okRun twoObserved [specIf "IPv6"]).2 (planOf [specIf "IPv6"])
    (desiredOf (planOf [specIf "IPv6"])) (stoppedServer twoObserved) rfl
    (Prod.ext (by decide) rfl) (by decide)).1 1 (obsIf 2 "IPv4" "10.0.0.2" "aa:02") rfl
    (by decide)

/-! ## Failing remote calls -/

/-- When a list ends with at most one element after a body that does not
contain `ev`, an occurrence of `ev` is that last element. -/
theorem split_at_last {α : Type} (body tail pre post : List α) (ev : α)
    (hbody : ∀ x ∈ body, x ≠ ev) (htail : tail = [] ∨ ∃ t, tail = [t])
    (h : body ++ tail = pre ++ ev :: post) : pre = body ∧ tail = [ev] ∧ post = [] := by
  rcases List.append_eq_append_iff.mp h with ⟨a, hpre, ht⟩ | ⟨c, hb, hc⟩
  · rcases htail with rfl | ⟨t, rfl⟩
    · simp at ht
    · rcases a with _ | ⟨x, a⟩
      · simp only [List.nil_append, List.cons.injEq] at ht
        obtain ⟨rfl, hpost⟩ := ht
        exact ⟨by simpa using hpre, rfl, hpost.symm⟩
      · simp at ht
  · rcases c with _ | ⟨x, c⟩
    · simp only [List.nil_append] at hc
      rcases htail with rfl | ⟨t, rfl⟩
      · simp at hc
      · simp only [List.cons.injEq] at hc
        obtain ⟨rfl, rfl⟩ := hc
        exact ⟨by simpa using hb.symm, rfl, rfl⟩
    · simp only [List.cons_append, List.cons.injEq] at hc
      obtain ⟨rfl, -⟩ := hc
      exact absurd rfl (hbody ev (by simp [hb]))

/-- C7: when a `DeleteNetworkInterface` or `CreateNetworkInterface` call of a
run fails with `err`, no call follows it in the log (nothing further is
issued, nothing is undone), every delete and create issued before it
succeeded, and the run returns an error that wraps `err` and whose text names
the operation and the index of the offending interface. -/
theorem reconfigure_fail_fast {σ : Type} (svc : Service σ) (w : World σ) (data : serverModel)
    (reqs : List CreateNetworkInterfaceRequest) (pre post : List Event) (c : Call) (err : Error)
    (hfail : issued w (reconfigureServerNetworkInterfaces svc w data reqs).2 =
      pre ++ { call := c, err := some err } :: post)
    (hkind : c.isDelete = true ∨ c.isCreate = true) :
    post = [] ∧
    (∀ ev ∈ pre, ev.call.isDelete = true ∨ ev.call.isCreate = true → ev.err = none) ∧
    ∃ e, (reconfigureServerNetworkInterfaces svc w data reqs).1 = some e ∧
      e.Unwrap = some err ∧
      (∀ rq, c = Call.DeleteNetworkInterface rq →
        e.text = "unable to delete interface #" ++ toString rq.Index ++ "; " ++ err.text) ∧
      (∀ rq, c = Call.CreateNetworkInterface rq →
        e.text = "unable to create interface #" ++ toString rq.Index ++ "; " ++ err.text) := by
  obtain ⟨e0, dels, crs, tail, hlog, htail⟩ := reconfigure_shape svc w
    (reconfigureServerNetworkInterfaces svc w data reqs).2 data reqs
    (reconfigureServerNetworkInterfaces svc w data reqs).1 rfl
  rw [List.append_assoc] at hlog
  rw [issued_of_log w _ _ hlog] at hfail
  have hbody : ∀ x ∈ getEvent data.ID.ValueString e0 ::
      ((dels.map fun k => deleteEvent data.ID.ValueString k none) ++
        (crs.map fun q => createEvent q none)),
      (x.call.isDelete = true ∨ x.call.isCreate = true → x.err = none) := by
    intro x hx
    simp only [List.mem_cons, List.mem_append, List.mem_map] at hx
    rcases hx with rfl | ⟨k, -, rfl⟩ | ⟨q, -, rfl⟩
    · simp [getEvent, Call.isDelete, Call.isCreate]
    · intro _; rfl
    · intro _; rfl
  have hne : ∀ x ∈ getEvent data.ID.ValueString e0 ::
      ((dels.map fun k => deleteEvent data.ID.ValueString k none) ++
        (crs.map fun q => createEvent q none)), x ≠ { call := c, err := some err } := by
    intro x hx hxe
    have := hbody x hx
    rw [hxe] at this
    exact absurd (this hkind) (by simp)
  have htail2 : tail = [] ∨ ∃ t, tail = [t] := by
    rcases htail with h | ⟨_, _, h, -⟩ | ⟨_, _, h, -⟩
    · exact Or.inl h
    · exact Or.inr ⟨_, h⟩
    · exact Or.inr ⟨_, h⟩
  obtain ⟨hpre, ht, hpost⟩ := split_at_last _ tail pre post _ hne htail2 hfail
  refine ⟨hpost, ?_, ?_⟩
  · intro ev hev
    rw [hpre] at hev
    exact hbody ev hev
  · rcases htail with h | ⟨index, e1, h, hr⟩ | ⟨q, e1, h, hr⟩
    · rw [h] at ht
      simp at ht
    · rw [h] at ht
      simp only [deleteEvent, List.cons.injEq, Event.mk.injEq, Option.some.injEq,
        and_true] at ht
      obtain ⟨hc, he⟩ := ht
      subst he
      refine ⟨_, hr, rfl, ?_, ?_⟩
      · intro rq hrq
        rw [← hc] at hrq
        obtain rfl := Call.DeleteNetworkInterface.inj hrq
        rfl
      · intro rq hrq
        rw [← hc] at hrq
        exact absurd hrq (by simp)
    · rw [h] at ht
      simp only [createEvent, List.cons.injEq, Event.mk.injEq, Option.some.injEq,
        and_true] at ht
      obtain ⟨hc, he⟩ := ht
      subst he
      refine ⟨_, hr, rfl, ?_, ?_⟩
      · intro rq hrq
        rw [← hc] at hrq
        exact absurd hrq (by simp)
      · intro rq hrq
        rw [← hc] at hrq
        obtain rfl := Call.CreateNetworkInterface.inj hrq
        rfl

/-- C7 on a remote service whose deletes time out: the run stops at the first
delete and returns its error wrapped with the operation and the index. -/
theorem reconfigure_fail_fast_witness :
    ∃ e, (failRun (Error.new "timeout") twoObserved [specIf "IPv6", specIf "IPv6"]).1 = some e ∧
      e.Unwrap = some (Error.new "timeout") ∧
      e.text = "unable to delete interface #" ++ toString (1 : Int) ++ "; " ++ "timeout" :=
  match (reconfigure_fail_fast (failingService (Error.new "timeout"))
      (freshWorld (stoppedServer twoObserved)) (planOf [specIf "IPv6", specIf "IPv6"])
      (desiredOf (planOf [specIf "IPv6", specIf "IPv6"])) [getEvent "srv" none] []
      (Call.DeleteNetworkInterface { ServerUUID := "srv", Index := 1 }) (Error.new "timeout")
      (by decide) (Or.inl rfl)).2.2 with
  | ⟨e, h1, h2, h3, _⟩ => ⟨e, h1, h2, h3 { ServerUUID := "srv", Index := 1 } rfl⟩

/-! ## The decision of `Update` to reconfigure the network -/

/-- The flag in terms of the two lists of family strings alone. -/
theorem isNetworkReconfigured_iff_families (dataState dataPlan : serverModel) :
    isNetworkReconfigured dataState dataPlan = true ↔
      (dataState.NetworkInterface.map fun n => n.IpAddressFamily.ValueString).length ≠
        (dataPlan.NetworkInterface.map fun n => n.IpAddressFamily.ValueString).length ∨
      ∃ (i : Nat) (x y : String),
        (dataState.NetworkInterface.map fun n => n.IpAddressFamily.ValueString)[i]? = some x ∧
        (dataPlan.NetworkInterface.map fun n => n.IpAddressFamily.ValueString)[i]? = some y ∧
        x ≠ y := by
  unfold isNetworkReconfigured
  by_cases hlen : dataState.NetworkInterface.length = dataPlan.NetworkInterface.length
  · simp only [hlen, ne_eq, not_true_eq_false, if_false, List.any_eq_true, List.mem_range,
      decide_eq_true_eq, List.length_map, false_or, List.getElem?_map,
      List.getD_eq_getElem?_getD]
    constructor
    · rintro ⟨i, hi, hne⟩
      have h1 : dataState.NetworkInterface[i]? = some dataState.NetworkInterface[i] :=
        List.getElem?_eq_getElem (by omega)
      have h2 : dataPlan.NetworkInterface[i]? = some dataPlan.NetworkInterface[i] :=
        List.getElem?_eq_getElem hi
      rw [h1, h2] at hne
      exact ⟨i, _, _, by rw [h1]; rfl, by rw [h2]; rfl, hne⟩
    · rintro ⟨i, x, y, hx, hy, hne⟩
      rcases h1 : dataState.NetworkInterface[i]? with _ | a
      · rw [h1] at hx
        simp at hx
      rcases h2 : dataPlan.NetworkInterface[i]? with _ | b
      · rw [h2] at hy
        simp at hy
      rw [h1] at hx
      rw [h2] at hy
      simp only [Option.map_some', Option.some.injEq] at hx hy
      obtain ⟨hlt, -⟩ := List.getElem?_eq_some.mp h2
      refine ⟨i, hlt, ?_⟩
      rw [h1, h2]
      simp only [Option.getD_some]
      rw [hx, hy]
      exact hne
  · simp [hlen]

/-- C8: `Update` sets `isNetworkReconfigured` exactly when the two interface
lists differ in length or, at equal length, the family strings differ at
some position; and the flag depends on the previous state and on the plan
only through their lists of family strings, so a difference in any other
field never sets it. -/
theorem isNetworkReconfigured_iff (dataState dataPlan : serverModel) :
    (isNetworkReconfigured dataState dataPlan = true ↔
      dataState.NetworkInterface.length ≠ dataPlan.NetworkInterface.length ∨
      (dataState.NetworkInterface.length = dataPlan.NetworkInterface.length ∧
        ∃ (i : Nat) (a b : networkInterfaceModel),
          dataState.NetworkInterface[i]? = some a ∧ dataPlan.NetworkInterface[i]? = some b ∧
          a.IpAddressFamily.ValueString ≠ b.IpAddressFamily.ValueString)) ∧
    (∀ st2 pl2 : serverModel,
      (st2.NetworkInterface.map fun n => n.IpAddressFamily.ValueString) =
        (dataState.NetworkInterface.map fun n => n.IpAddressFamily.ValueString) →
      (pl2.NetworkInterface.map fun n => n.IpAddressFamily.ValueString) =
        (dataPlan.NetworkInterface.map fun n => n.IpAddressFamily.ValueString) →
      isNetworkReconfigured st2 pl2 = isNetworkReconfigured dataState dataPlan) := by
  constructor
  · rw [isNetworkReconfigured_iff_families]
    simp only [List.length_map, List.getElem?_map]
    constructor
    · rintro (h | ⟨i, x, y, hx, hy, hne⟩)
      · exact Or.inl h
      · by_cases hlen : dataState.NetworkInterface.length = dataPlan.NetworkInterface.length
        · right
          rcases h1 : dataState.NetworkInterface[i]? with _ | a
          · rw [h1] at hx
            simp at hx
          rcases h2 : dataPlan.NetworkInterface[i]? with _ | b
          · rw [h2] at hy
            simp at hy
          rw [h1] at hx
          rw [h2] at hy
          simp only [Option.map_some', Option.some.injEq] at hx hy
          exact ⟨hlen, i, a, b, h1, h2, by rw [hx, hy]; exact hne⟩
        · exact Or.inl hlen
    · rintro (h | ⟨-, i, a, b, ha, hb, hne⟩)
      · exact Or.inl h
      · exact Or.inr ⟨i, _, _, by rw [ha]; rfl, by rw [hb]; rfl, hne⟩
  · intro st2 pl2 h1 h2
    rw [Bool.eq_iff_iff, isNetworkReconfigured_iff_families, isNetworkReconfigured_iff_families,
      h1, h2]

/-- C8 on two lists that differ in every field but the family: the flag is not set. -/
theorem isNetworkReconfigured_iff_witness :
    isNetworkReconfigured
        (planOf [{ specIf "IPv4" with IpAddress := StringValue "10.0.0.1",
                                       MacAddress := StringValue "aa:01",
                                       Network := StringValue "net-1",
                                       Bootable := BoolValue true }])
        { Hostname := StringValue "other", NetworkInterface := [specIf "IPv4"] } =
      isNetworkReconfigured (planOf [specIf "IPv4"]) (planOf [specIf "IPv4"]) :=
  (isNetworkReconfigured_iff (planOf [specIf "IPv4"]) (planOf [specIf "IPv4"])).2 _ _ rfl rfl

/-! ## `Update` without a change of the network -/

theorem callModifyServer_log {σ : Type} (svc : Service σ) (w : World σ)
    (r : ModifyServerRequest) :
    (callModifyServer svc w r).2.log =
      w.log ++ [modifyEvent r.UUID r.Hostname (errOf (callModifyServer svc w r).1)] := rfl

theorem callVerifyServerStopped_log {σ : Type} (svc : Service σ) (w : World σ)
    (r : StopServerRequest) :
    (callVerifyServerStopped svc w r).2.log =
      w.log ++ [stopEvent r.UUID (callVerifyServerStopped svc w r).1] := rfl

theorem callVerifyServerStarted_log {σ : Type} (svc : Service σ) (w : World σ)
    (r : StartServerRequest) :
    (callVerifyServerStarted svc w r).2.log =
      w.log ++ [startEvent r.UUID (callVerifyServerStarted svc w r).1] := rfl

/-- C9, as stated, fails: with a plan equal to the previous state (same
interfaces, same hostname `web`) `Update` still issues the `ModifyServer` call. -/
theorem Update_same_hostname_counterexample :
    (planOf [specIf "IPv4"]).Hostname = StringValue "web" ∧
      isNetworkReconfigured (planOf [specIf "IPv4"]) (planOf [specIf "IPv4"]) = false ∧
      issued (freshWorld startedServer)
          (Update okService (freshWorld startedServer)
            { Plan := { value := planOf [specIf "IPv4"] },
              State := { value := planOf [specIf "IPv4"] } }).2 =
        [modifyEvent "srv" "web" none, getEvent "srv" none] := by
  refine ⟨by decide, by decide, by decide⟩

theorem isNetworkReconfigured_false (dataState dataPlan : serverModel)
    (hlen : dataState.NetworkInterface.length = dataPlan.NetworkInterface.length)
    (hfam : ∀ (i : Nat) (a b : networkInterfaceModel),
      dataState.NetworkInterface[i]? = some a → dataPlan.NetworkInterface[i]? = some b →
      a.IpAddressFamily.ValueString = b.IpAddressFamily.ValueString) :
    isNetworkReconfigured dataState dataPlan = false := by
  rw [← Bool.not_eq_true, isNetworkReconfigured_iff_families]
  simp only [List.length_map, List.getElem?_map]
  rintro (h | ⟨i, x, y, hx, hy, hne⟩)
  · exact h hlen
  · rcases h1 : dataState.NetworkInterface[i]? with _ | a
    · rw [h1] at hx
      simp at hx
    rcases h2 : dataPlan.NetworkInterface[i]? with _ | b
    · rw [h2] at hy
      simp at hy
    rw [h1] at hx
    rw [h2] at hy
    simp only [Option.map_some', Option.some.injEq] at hx hy
    exact hne (by rw [← hx, ← hy]; exact hfam i a b h1 h2)

theorem hasError_append (d1 d2 : Diagnostics) :
    Diagnostics.HasError (d1 ++ d2) = (Diagnostics.HasError d1 || Diagnostics.HasError d2) := by
  simp [Diagnostics.HasError, List.any_append]

/-- Without a reconfiguration `Update` is its part from `ModifyServer` on. -/
theorem Update_of_not_reconfigured {σ : Type} (svc : Service σ) (w : World σ)
    (req : UpdateRequest)
    (hdiags : Diagnostics.HasError (req.Plan.diags ++ req.State.diags) = false)
    (hrec : isNetworkReconfigured req.State.value req.Plan.value = false) :
    Update svc w req =
      updateServer svc (req.Plan.diags ++ req.State.diags) req.Plan.value false w := by
  have h1 : Diagnostics.HasError req.Plan.diags = false := by
    rw [hasError_append] at hdiags
    simp only [Bool.or_eq_false_iff] at hdiags
    exact hdiags.1
  simp [Update, h1, hdiags, hrec]

/-- C9 (amended): an `Update` whose plan and previous state decode without
error and have interface lists of the same length with the same family at
every position issues no stop, no start and no reconciler call (no delete, no
create); it issues the `ModifyServer` call with the desired hostname whether
or not the hostname differs from the recorded one, followed, when that call
succeeds, by the fetch of the server details, and nothing else. -/
theorem Update_unchanged_network {σ : Type} (svc : Service σ) (w : World σ)
    (req : UpdateRequest)
    (hdiags : Diagnostics.HasError (req.Plan.diags ++ req.State.diags) = false)
    (hlen : req.State.value.NetworkInterface.length = req.Plan.value.NetworkInterface.length)
    (hfam : ∀ (i : Nat) (a b : networkInterfaceModel),
      req.State.value.NetworkInterface[i]? = some a →
      req.Plan.value.NetworkInterface[i]? = some b →
      a.IpAddressFamily.ValueString = b.IpAddressFamily.ValueString) :
    ((∃ e, issued w (Update svc w req).2 =
        [modifyEvent req.Plan.value.ID.ValueString req.Plan.value.Hostname.ValueString
          (some e)]) ∨
      (∃ e2, issued w (Update svc w req).2 =
        [modifyEvent req.Plan.value.ID.ValueString req.Plan.value.Hostname.ValueString none,
          getEvent req.Plan.value.ID.ValueString e2])) ∧
    (∀ ev ∈ issued w (Update svc w req).2,
      ev.call.isStop = false ∧ ev.call.isStart = false ∧ ev.call.isDelete = false ∧
        ev.call.isCreate = false) := by
  rw [Update_of_not_reconfigured svc w req hdiags (isNetworkReconfigured_false _ _ hlen hfam)]
  have hm := callModifyServer_log svc w
    { UUID := req.Plan.value.ID.ValueString, Hostname := req.Plan.value.Hostname.ValueString }
  have hcases : (∃ e, issued w (updateServer svc (req.Plan.diags ++ req.State.diags)
        req.Plan.value false w).2 =
        [modifyEvent req.Plan.value.ID.ValueString req.Plan.value.Hostname.ValueString
          (some e)]) ∨
      (∃ e2, issued w (updateServer svc (req.Plan.diags ++ req.State.diags)
        req.Plan.value false w).2 =
        [modifyEvent req.Plan.value.ID.ValueString req.Plan.value.Hostname.ValueString none,
          getEvent req.Plan.value.ID.ValueString e2]) := by
    unfold updateServer
    rcases hc : callModifyServer svc w (ModifyServerRequest.mk req.Plan.value.ID.ValueString
        req.Plan.value.Hostname.ValueString) with ⟨err | d, w1⟩
    · rw [hc] at hm
      simp only [errOf] at hm
      exact Or.inl ⟨err, issued_of_log w w1 _ hm⟩
    · rw [hc] at hm
      simp only [errOf] at hm
      have hg := callGetServerDetails_log svc w1 { UUID := req.Plan.value.ID.ValueString }
      simp only [Bool.false_eq_true, if_false]
      rcases hgc : callGetServerDetails svc w1 { UUID := req.Plan.value.ID.ValueString } with
        ⟨err | details, w3⟩
      · rw [hgc] at hg
        simp only [errOf] at hg
        exact Or.inr ⟨some err, issued_of_log w w3 _ (by rw [hg, hm]; simp)⟩
      · rw [hgc] at hg
        simp only [errOf] at hg
        exact Or.inr ⟨none, issued_of_log w w3 _ (by rw [hg, hm]; simp)⟩
  refine ⟨hcases, ?_⟩
  intro ev hev
  rcases hcases with ⟨e, h⟩ | ⟨e2, h⟩
  · rw [h, List.mem_singleton] at hev
    subst hev
    exact ⟨rfl, rfl, rfl, rfl⟩
  · rw [h] at hev
    simp only [List.mem_cons, List.mem_singleton, List.not_mem_nil, or_false] at hev
    rcases hev with rfl | rfl
    · exact ⟨rfl, rfl, rfl, rfl⟩
    · exact ⟨rfl, rfl, rfl, rfl⟩

/-- C9 (amended) on a plan equal to the previous state of a running server:
the calls are the `ModifyServer` call and, after it, the fetch. -/
theorem Update_unchanged_network_witness :
    (∃ e, issued (freshWorld startedServer)
        (Update okService (freshWorld startedServer)
          { Plan := { value := planOf [specIf "IPv4"] },
            State := { value := planOf [specIf "IPv4"] } }).2 =
        [modifyEvent "srv" "web" (some e)]) ∨
      (∃ e2, issued (freshWorld startedServer)
        (Update okService (freshWorld startedServer)
          { Plan := { value := planOf [specIf "IPv4"] },
            State := { value := planOf [specIf "IPv4"] } }).2 =
        [modifyEvent "srv" "web" none, getEvent "srv" e2]) :=
  (Update_unchanged_network okService (freshWorld startedServer)
    { Plan := { value := planOf [specIf "IPv4"] }, State := { value := planOf [specIf "IPv4"] } }
    rfl rfl (fun i a b ha hb => by
      rw [ha] at hb
      rw [Option.some.inj hb])).1

/-! ## `Update` with a change of the network -/

/-- The sub-steps that ran are a prefix of the given ones, all successful but
possibly the last, and all of them ran when none failed. -/
theorem runUntilFailure_prefix {σ : Type} (svc : Service σ) (dataPlan : serverModel)
    (steps : List SubStep) :
    ∀ w : World σ,
      (runUntilFailure svc dataPlan steps w).1 = steps.map (fun st => (st, none)) ∨
      ∃ (k : Nat) (st : SubStep) (e : Error), steps[k]? = some st ∧
        (runUntilFailure svc dataPlan steps w).1 =
          (steps.take k).map (fun st => (st, none)) ++ [(st, some e)] := by
  induction steps with
  | nil => intro w; exact Or.inl rfl
  | cons st rest ih =>
    intro w
    rcases hs : runSubStep svc dataPlan st w with ⟨_ | e, w1⟩
    · rcases ih w1 with h | ⟨k, st2, e, hk, h⟩
      · left
        simp [runUntilFailure, hs, h]
      · right
        exact ⟨k + 1, st2, e, by simpa using hk, by simp [runUntilFailure, hs, h]⟩
    · right
      exact ⟨0, st, e, by simp, by simp [runUntilFailure, hs]⟩

/-- The calls of a reconciler run are fetches, deletes and creates. -/
theorem reconfigure_calls {σ : Type} (svc : Service σ) (w : World σ) (data : serverModel)
    (reqs : List CreateNetworkInterfaceRequest) :
    ∃ evs, (reconfigureServerNetworkInterfaces svc w data reqs).2.log = w.log ++ evs ∧
      ∀ ev ∈ evs, ev.call.isStart = false ∧ ev.call.isStop = false ∧
        ev.call.isModify = false := by
  obtain ⟨e0, dels, crs, tail, hlog, htail⟩ := reconfigure_shape svc w
    (reconfigureServerNetworkInterfaces svc w data reqs).2 data reqs
    (reconfigureServerNetworkInterfaces svc w data reqs).1 rfl
  rw [List.append_assoc] at hlog
  refine ⟨_, hlog, ?_⟩
  intro ev hev
  simp only [List.mem_cons, List.mem_append, List.mem_map] at hev
  rcases hev with (rfl | ⟨k, -, rfl⟩ | ⟨q, -, rfl⟩) | ht
  · exact ⟨rfl, rfl, rfl⟩
  · exact ⟨rfl, rfl, rfl⟩
  · exact ⟨rfl, rfl, rfl⟩
  · rcases htail with h | ⟨_, _, h, -⟩ | ⟨_, _, h, -⟩
    · rw [h] at ht
      simp at ht
    · rw [h, List.mem_singleton] at ht
      subst ht
      exact ⟨rfl, rfl, rfl⟩
    · rw [h, List.mem_singleton] at ht
      subst ht
      exact ⟨rfl, rfl, rfl⟩

theorem hasError_snoc_error (d : Diagnostics) (summary detail : String) :
    Diagnostics.HasError (d ++ [Diagnostic.error summary detail]) = true := by
  simp [Diagnostics.HasError, Diagnostic.isError]

/-- With a reconfiguration `Update` runs its network part and then its part
from `ModifyServer` on. -/
theorem Update_of_reconfigured {σ : Type} (svc : Service σ) (w : World σ)
    (req : UpdateRequest)
    (hdiags : Diagnostics.HasError (req.Plan.diags ++ req.State.diags) = false)
    (hrec : isNetworkReconfigured req.State.value req.Plan.value = true) :
    Update svc w req =
      match updateNetwork svc req.Plan.value w with
      | (some d, w1) =>
        ({ Diagnostics := req.Plan.diags ++ req.State.diags ++ [d], State := none }, w1)
      | (none, w1) =>
        updateServer svc (req.Plan.diags ++ req.State.diags) req.Plan.value true w1 := by
  have h1 : Diagnostics.HasError req.Plan.diags = false := by
    rw [hasError_append] at hdiags
    simp only [Bool.or_eq_false_iff] at hdiags
    exact hdiags.1
  simp [Update, h1, hdiags, hrec]

/-- The outcome of an `Update` that reconfigures the network, sub-step by
sub-step: the response, the world, and the sub-steps of `runUntilFailure`. -/
theorem Update_bracket_cases {σ : Type} (svc : Service σ) (w : World σ) (req : UpdateRequest)
    (hdiags : Diagnostics.HasError (req.Plan.diags ++ req.State.diags) = false)
    (hrec : isNetworkReconfigured req.State.value req.Plan.value = true) :
    (Update svc w req).2 = (runUntilFailure svc req.Plan.value bracket w).2 ∧
    ((∃ (st : SubStep) (e : Error) (done : List SubStep),
        (runUntilFailure svc req.Plan.value bracket w).1 =
          done.map (fun st => (st, none)) ++ [(st, some e)] ∧
        Diagnostics.HasError (Update svc w req).1.Diagnostics = true ∧
        (Update svc w req).1.State = none) ∨
      ((runUntilFailure svc req.Plan.value bracket w).1 = bracket.map (fun st => (st, none)) ∧
        Diagnostics.HasError (Update svc w req).1.Diagnostics = false ∧
        ∃ details, (Update svc w req).1.State =
          (setServerValues (some req.Plan.value) (some details)).2 ∧
          (Update svc w req).1.State.isSome = true)) := by
  rw [Update_of_reconfigured svc w req hdiags hrec]
  have hbuild : buildNetworkInterfaceRequestFromServerModel (some req.Plan.value) =
      .ok (desiredOf req.Plan.value) := rfl
  simp only [updateNetwork, hbuild, bracket, runUntilFailure, runSubStep]
  rcases h1 : callVerifyServerStopped svc w (StopServerRequest.mk req.Plan.value.ID.ValueString)
    with ⟨_ | e, w1⟩
  swap
  · exact ⟨rfl, Or.inl ⟨.stopServer, e, [], rfl, hasError_snoc_error _ _ _, rfl⟩⟩
  simp only []
  rcases h2 : reconfigureServerNetworkInterfaces svc w1 req.Plan.value
    (desiredOf req.Plan.value) with ⟨_ | e, w2⟩
  swap
  · exact ⟨rfl, Or.inl ⟨.reconcileInterfaces, e, [.stopServer], rfl,
      hasError_snoc_error _ _ _, rfl⟩⟩
  simp only [updateServer]
  rcases h3 : callModifyServer svc w2 (ModifyServerRequest.mk req.Plan.value.ID.ValueString
    req.Plan.value.Hostname.ValueString) with ⟨e | d, w3⟩
  · exact ⟨rfl, Or.inl ⟨.modifyHostname, e, [.stopServer, .reconcileInterfaces], rfl,
      hasError_snoc_error _ _ _, rfl⟩⟩
  simp only [errOf, if_true]
  rcases h4 : callVerifyServerStarted svc w3
    (StartServerRequest.mk req.Plan.value.ID.ValueString) with ⟨_ | e, w4⟩
  swap
  · exact ⟨rfl, Or.inl ⟨.startServer, e, [.stopServer, .reconcileInterfaces, .modifyHostname],
      rfl, hasError_snoc_error _ _ _, rfl⟩⟩
  simp only []
  rcases h5 : callGetServerDetails svc w4
    (GetServerDetailsRequest.mk req.Plan.value.ID.ValueString) with ⟨e | details, w5⟩
  · exact ⟨rfl, Or.inl ⟨.refetchDetails, e,
      [.stopServer, .reconcileInterfaces, .modifyHostname, .startServer], rfl,
      hasError_snoc_error _ _ _, rfl⟩⟩
  · refine ⟨rfl, Or.inr ⟨rfl, ?_, details, rfl, rfl⟩⟩
    simpa [setServerValues] using hdiags

/-- Only the sub-step `startServer` issues a `VerifyServerStarted` call. -/
theorem runSubStep_calls {σ : Type} (svc : Service σ) (dataPlan : serverModel) (st : SubStep)
    (w : World σ) :
    ∃ evs, (runSubStep svc dataPlan st w).2.log = w.log ++ evs ∧
      ∀ ev ∈ evs, ev.call.isStart = true → st = SubStep.startServer := by
  cases st with
  | stopServer =>
    refine ⟨_, callVerifyServerStopped_log svc w _, ?_⟩
    intro ev hev hs
    rw [List.mem_singleton] at hev
    subst hev
    simp [stopEvent, Call.isStart] at hs
  | reconcileInterfaces =>
    obtain ⟨evs, hlog, hevs⟩ := reconfigure_calls svc w dataPlan (desiredOf dataPlan)
    refine ⟨evs, hlog, ?_⟩
    intro ev hev hs
    rw [(hevs ev hev).1] at hs
    exact absurd hs (by simp)
  | modifyHostname =>
    refine ⟨_, callModifyServer_log svc w _, ?_⟩
    intro ev hev hs
    rw [List.mem_singleton] at hev
    subst hev
    simp [modifyEvent, Call.isStart] at hs
  | startServer => exact ⟨_, callVerifyServerStarted_log svc w _, fun _ _ _ => rfl⟩
  | refetchDetails =>
    refine ⟨_, callGetServerDetails_log svc w _, ?_⟩
    intro ev hev hs
    rw [List.mem_singleton] at hev
    subst hev
    simp [getEvent, Call.isStart] at hs

/-- A `VerifyServerStarted` call in the log of the sub-steps comes from a
`startServer` sub-step that ran. -/
theorem runUntilFailure_calls {σ : Type} (svc : Service σ) (dataPlan : serverModel)
    (steps : List SubStep) :
    ∀ w : World σ, ∃ evs, (runUntilFailure svc dataPlan steps w).2.log = w.log ++ evs ∧
      ∀ ev ∈ evs, ev.call.isStart = true →
        SubStep.startServer ∈ (runUntilFailure svc dataPlan steps w).1.map Prod.fst := by
  induction steps with
  | nil => intro w; exact ⟨[], by simp [runUntilFailure], by simp⟩
  | cons st rest ih =>
    intro w
    obtain ⟨evs1, hlog1, h1⟩ := runSubStep_calls svc dataPlan st w
    rcases hs : runSubStep svc dataPlan st w with ⟨_ | e, w1⟩
    · rw [hs] at hlog1
      simp only at hlog1
      obtain ⟨evs2, hlog2, h2⟩ := ih w1
      refine ⟨evs1 ++ evs2, by simp [runUntilFailure, hs, hlog2, hlog1], ?_⟩
      intro ev hev hstart
      simp only [runUntilFailure, hs, List.map_cons, List.mem_cons]
      rcases List.mem_append.mp hev with h | h
      · exact Or.inl (h1 ev h hstart).symm
      · exact Or.inr (h2 ev h hstart)
    · rw [hs] at hlog1
      simp only at hlog1
      refine ⟨evs1, by simp [runUntilFailure, hs, hlog1], ?_⟩
      intro ev hev hstart
      simp only [runUntilFailure, hs, List.map_cons, List.map_nil, List.mem_singleton]
      exact (h1 ev hev hstart).symm

/-- C10: an `Update` that reconfigures the network (plan and previous state
decoded without error) leaves the world that the fixed sequence stop-server,
reconcile-interfaces, modify-hostname, start-server, re-fetch-details leaves
when it is cut at the first sub-step that fails: the sub-steps that ran are
a prefix of the sequence, all successful but possibly the last; a failing
sub-step gives an error diagnostic and no state is written; no
`VerifyServerStarted` call is issued when stop, reconcile or modify failed;
and the merged state is written exactly when all five sub-steps succeed. -/
theorem Update_bracket {σ : Type} (svc : Service σ) (w : World σ) (req : UpdateRequest)
    (hdiags : Diagnostics.HasError (req.Plan.diags ++ req.State.diags) = false)
    (hrec : isNetworkReconfigured req.State.value req.Plan.value = true) :
    (Update svc w req).2 = (runUntilFailure svc req.Plan.value bracket w).2 ∧
    ((runUntilFailure svc req.Plan.value bracket w).1 = bracket.map (fun st => (st, none)) ∨
      ∃ (k : Nat) (st : SubStep) (e : Error), bracket[k]? = some st ∧
        (runUntilFailure svc req.Plan.value bracket w).1 =
          (bracket.take k).map (fun st => (st, none)) ++ [(st, some e)]) ∧
    (∀ (st : SubStep) (e : Error), (st, some e) ∈ (runUntilFailure svc req.Plan.value bracket w).1 →
      Diagnostics.HasError (Update svc w req).1.Diagnostics = true ∧
        (Update svc w req).1.State = none) ∧
    (∀ (st : SubStep) (e : Error), (st, some e) ∈ (runUntilFailure svc req.Plan.value bracket w).1 →
      st = SubStep.stopServer ∨ st = SubStep.reconcileInterfaces ∨ st = SubStep.modifyHostname →
      ∀ ev ∈ issued w (Update svc w req).2, ev.call.isStart = false) ∧
    ((Update svc w req).1.State.isSome = true ↔
      (runUntilFailure svc req.Plan.value bracket w).1 = bracket.map (fun st => (st, none))) ∧
    ((runUntilFailure svc req.Plan.value bracket w).1 = bracket.map (fun st => (st, none)) →
      Diagnostics.HasError (Update svc w req).1.Diagnostics = false ∧
        ∃ details, (Update svc w req).1.State =
          (setServerValues (some req.Plan.value) (some details)).2) := by
  obtain ⟨hworld, hcases⟩ := Update_bracket_cases svc w req hdiags hrec
  have hnone : ∀ (l : List SubStep) (st : SubStep) (e : Error),
      (st, some e) ∉ l.map (fun st => ((st, none) : SubStep × Option Error)) := by
    intro l st e h
    simp at h
  have hprefix := runUntilFailure_prefix svc req.Plan.value bracket w
  refine ⟨hworld, hprefix, ?_, ?_, ?_, ?_⟩
  · intro st e hmem
    rcases hcases with ⟨st0, e0, done, -, herr, hstate⟩ | ⟨hall, -, -⟩
    · exact ⟨herr, hstate⟩
    · rw [hall] at hmem
      exact absurd hmem (hnone _ _ _)
  · intro st e hmem hst ev hev
    obtain ⟨evs, hlog, hevs⟩ := runUntilFailure_calls svc req.Plan.value bracket w
    rw [hworld, issued_of_log w _ _ hlog] at hev
    by_contra hne
    have hin := hevs ev hev (by simpa using hne)
    rcases hprefix with hall | ⟨k, st2, e2, hk, hrun⟩
    · rw [hall] at hmem
      exact absurd hmem (hnone _ _ _)
    · rw [hrun] at hmem hin
      have hst2 : st = st2 := by
        rcases List.mem_append.mp hmem with h | h
        · exact absurd h (hnone _ _ _)
        · rw [List.mem_singleton] at h
          exact (Prod.mk.inj h).1
      subst hst2
      rcases k with _ | _ | _ | _ | _ | k
      · simp [bracket] at hk hin
        rw [← hk] at hin
        exact absurd hin (by simp)
      · simp [bracket] at hk hin
        rw [← hk] at hin
        exact absurd hin (by simp)
      · simp [bracket] at hk hin
        rw [← hk] at hin
        exact absurd hin (by simp)
      · simp [bracket] at hk
        rw [← hk] at hst
        simp at hst
      · simp [bracket] at hk
        rw [← hk] at hst
        simp at hst
      · simp [bracket] at hk
  · rcases hcases with ⟨st0, e0, done, hrun, -, hstate⟩ | ⟨hall, -, details, -, hsome⟩
    · rw [hstate]
      constructor
      · intro h
        simp at h
      · intro hall
        rw [hall] at hrun
        have : (st0, some e0) ∈ bracket.map (fun st => ((st, none) : SubStep × Option Error)) := by
          rw [hrun]
          simp
        exact absurd this (hnone _ _ _)
    · exact ⟨fun _ => hall, fun _ => hsome⟩
  · intro hall
    rcases hcases with ⟨st0, e0, done, hrun, -, -⟩ | ⟨-, herr, details, hstate, -⟩
    · rw [hall] at hrun
      have : (st0, some e0) ∈ bracket.map (fun st => ((st, none) : SubStep × Option Error)) := by
        rw [hrun]
        simp
      exact absurd this (hnone _ _ _)
    · exact ⟨herr, details, hstate⟩

/-- C10 on an `Update` from `[IPv4, IPv4]` to `[IPv4, IPv6]` whose delete of
interface 2 times out: the reconcile sub-step fails, the update reports an
error and writes no state. -/
theorem Update_bracket_witness :
    (timeoutUpdate twoObserved [specIf "IPv4", specIf "IPv4"] [specIf "IPv4", specIf "IPv6"]).2 =
        (runUntilFailure (failingService (Error.new "timeout"))
          (planOf [specIf "IPv4", specIf "IPv6"]) bracket
          (freshWorld (stoppedServer twoObserved))).2 ∧
      Diagnostics.HasError (timeoutUpdate twoObserved [specIf "IPv4", specIf "IPv4"]
        [specIf "IPv4", specIf "IPv6"]).1.Diagnostics = true ∧
      (timeoutUpdate twoObserved [specIf "IPv4", specIf "IPv4"]
        [specIf "IPv4", specIf "IPv6"]).1.State = none :=
  ⟨(Update_bracket (failingService (Error.new "timeout")) (freshWorld (stoppedServer twoObserved))
      { Plan := { value := planOf [specIf "IPv4", specIf "IPv6"] },
        State := { value := planOf [specIf "IPv4", specIf "IPv4"] } } rfl (by decide)).1,
    (Update_bracket (failingService (Error.new "timeout")) (freshWorld (stoppedServer twoObserved))
      { Plan := { value := planOf [specIf "IPv4", specIf "IPv6"] },
        State := { value := planOf [specIf "IPv4", specIf "IPv4"] } } rfl (by decide)).2.2.1
      SubStep.reconcileInterfaces (deleteError 2 (Error.new "timeout")) (by decide)⟩

/-! ## Validation of the zone -/

theorem callGetZones_log {σ : Type} (svc : Service σ) (w : World σ) :
    (callGetZones svc w).2.log = w.log ++ [getZonesEvent (errOf (callGetZones svc w).1)] := rfl

/-- The loop succeeds exactly when the rest of the catalog holds the zone,
and otherwise returns the error that lists the collected identifiers followed
by those of the rest of the catalog. -/
theorem validateZoneLoop_spec (zone : String) (zones : List Zone) :
    ∀ acc : List String,
      (validateZoneLoop zone zones acc = none ↔ ∃ z ∈ zones, z.ID = zone) ∧
      ((¬ ∃ z ∈ zones, z.ID = zone) →
        validateZoneLoop zone zones acc =
          some (zoneError (acc ++ zones.map fun z => z.ID) zone)) := by
  induction zones with
  | nil => intro acc; simp [validateZoneLoop]
  | cons z rest ih =>
    intro acc
    by_cases hz : z.ID = zone
    · simp [validateZoneLoop, hz]
    · obtain ⟨h1, h2⟩ := ih (acc ++ [z.ID])
      simp only [validateZoneLoop, hz, if_false, List.mem_cons, exists_eq_or_imp, false_or,
        List.map_cons]
      refine ⟨h1, fun hno => ?_⟩
      rw [h2 hno]
      simp

/-- The validator on a fetched catalog is the loop from the empty collection. -/
theorem validateZone_of_catalog {σ : Type} (svc : Service σ) (w : World σ) (zone : String)
    (zones : Zones) (hget : (svc.GetZones w.remote).1 = .ok zones) :
    validateZone svc w zone = (validateZoneLoop zone zones.Zones [], (callGetZones svc w).2) ∧
      issued w (callGetZones svc w).2 = [getZonesEvent none] := by
  have h1 : (callGetZones svc w).1 = .ok zones := hget
  constructor
  · unfold validateZone
    rcases hc : callGetZones svc w with ⟨r, w1⟩
    rw [hc] at h1
    simp only at h1
    subst h1
    rfl
  · apply issued_of_log
    rw [callGetZones_log, h1]
    rfl

/-- C11: on a fetched catalog `validateZone` returns no error exactly when
the requested zone is the identifier of a zone of the catalog; otherwise the
text of its error lists the identifiers of all zones of the catalog, in
catalog order and separated by ", ", followed by the rejected zone; and a
`Create` whose planned zone is not in the catalog issues no create-server
call, reports an error and writes no state. -/
theorem validateZone_contract {σ : Type} (svc : Service σ) (w : World σ) (zone : String)
    (zones : Zones) (req : CreateRequest)
    (hget : (svc.GetZones w.remote).1 = .ok zones) :
    ((validateZone svc w zone).1 = none ↔ ∃ z ∈ zones.Zones, z.ID = zone) ∧
    ((¬ ∃ z ∈ zones.Zones, z.ID = zone) →
      ∃ e, (validateZone svc w zone).1 = some e ∧
        e.text = "expected zone to be one of [" ++
          ", ".intercalate (zones.Zones.map fun z => z.ID) ++ "], got " ++ zone) ∧
    ((¬ ∃ z ∈ zones.Zones, z.ID = req.Plan.value.Zone.ValueString) →
      (∀ ev ∈ issued w (Create svc w req).2, ev.call.isCreateServer = false) ∧
        Diagnostics.HasError (Create svc w req).1.Diagnostics = true ∧
        (Create svc w req).1.State = none) := by
  refine ⟨?_, ?_, ?_⟩
  · rw [(validateZone_of_catalog svc w zone zones hget).1]
    exact (validateZoneLoop_spec zone zones.Zones []).1
  · intro hno
    rw [(validateZone_of_catalog svc w zone zones hget).1]
    refine ⟨_, (validateZoneLoop_spec zone zones.Zones []).2 hno, ?_⟩
    simp [zoneError, Error.text]
  · intro hno
    by_cases hd : Diagnostics.HasError req.Plan.diags = true
    · have hc : Create svc w req = ({ Diagnostics := req.Plan.diags, State := none }, w) := by
        simp [Create, hd]
      rw [hc]
      refine ⟨?_, hd, rfl⟩
      intro ev hev
      rw [issued_of_log w w [] (by simp)] at hev
      simp at hev
    · obtain ⟨hv, hiss⟩ := validateZone_of_catalog svc w req.Plan.value.Zone.ValueString zones hget
      have hloop := (validateZoneLoop_spec req.Plan.value.Zone.ValueString zones.Zones []).2 hno
      have hc : Create svc w req =
          ({ Diagnostics := req.Plan.diags ++ [.error "Zone Error"
              ("Unable to find provided zone, got error: " ++
                (zoneError ([] ++ zones.Zones.map fun z => z.ID)
                  req.Plan.value.Zone.ValueString).text)],
             State := none }, (callGetZones svc w).2) := by
        simp only [Create, hd, hv, hloop]
        rfl
      rw [hc]
      refine ⟨?_, hasError_snoc_error _ _ _, rfl⟩
      intro ev hev
      simp only at hev
      rw [hiss, List.mem_singleton] at hev
      subst hev
      rfl

/-- C11 on the catalog `fi-hel1, de-fra1, us-nyc1` and the zone `zone-01`. -/
theorem validateZone_contract_witness :
    ∃ e, (validateZone (catalogService ["fi-hel1", "de-fra1", "us-nyc1"])
        (freshWorld startedServer) "zone-01").1 = some e ∧
      e.text = "expected zone to be one of [" ++
        ", ".intercalate ["fi-hel1", "de-fra1", "us-nyc1"] ++ "], got " ++ "zone-01" :=
  (validateZone_contract (catalogService ["fi-hel1", "de-fra1", "us-nyc1"])
    (freshWorld startedServer) "zone-01"
    { Zones := ["fi-hel1", "de-fra1", "us-nyc1"].map Zone.mk }
    { Plan := { value := planOf [specIf "IPv4"] } } rfl).2.1 (by decide)

/-! ## The merge of the observed server into the tracked model -/

/-- The loop over the addresses leaves the fields read from the interface itself. -/
theorem foldl_setAddress_fields (ips : List IPAddress) :
    ∀ ni : networkInterfaceModel,
      (ips.foldl setAddress ni).MacAddress = ni.MacAddress ∧
      (ips.foldl setAddress ni).Type_ = ni.Type_ ∧
      (ips.foldl setAddress ni).Network = ni.Network ∧
      (ips.foldl setAddress ni).SourceIpFiltering = ni.SourceIpFiltering ∧
      (ips.foldl setAddress ni).Bootable = ni.Bootable := by
  induction ips with
  | nil => intro ni; exact ⟨rfl, rfl, rfl, rfl, rfl⟩
  | cons ip rest ih =>
    intro ni
    simp only [List.foldl_cons]
    obtain ⟨h1, h2, h3, h4, h5⟩ := ih (setAddress ni ip)
    exact ⟨h1, h2, h3, h4, h5⟩

/-- C12: for a non-nil model and a non-nil observed server `setServerValues`
returns no diagnostic and leaves a model that does not depend on what the
model held before: the identifier, hostname and zone are the observed ones,
and the interface list has one entry per observed interface, in the observed
order, with the MAC, type, network, source-IP-filtering and bootable values
of that interface and, for an interface with exactly one address, the value,
family and floating flag of that address. -/
theorem setServerValues_overwrites (d d2 : serverModel) (details : ServerDetails) :
    (setServerValues (some d) (some details)).1 = [] ∧
    (setServerValues (some d) (some details)).2 = (setServerValues (some d2) (some details)).2 ∧
    ∃ m, (setServerValues (some d) (some details)).2 = some m ∧
      m.ID = StringValue details.UUID ∧ m.Hostname = StringValue details.Hostname ∧
      m.Zone = StringValue details.Zone ∧
      m.NetworkInterface.length = details.Networking.Interfaces.length ∧
      ∀ (i : Nat) (iface : ServerInterface), details.Networking.Interfaces[i]? = some iface →
        ∃ ni, m.NetworkInterface[i]? = some ni ∧
          ni.MacAddress = StringValue iface.MAC ∧ ni.Type_ = StringValue iface.Type_ ∧
          ni.Network = StringValue iface.Network ∧
          ni.SourceIpFiltering = BoolValue iface.SourceIPFiltering.Bool ∧
          ni.Bootable = BoolValue iface.Bootable.Bool ∧
          ∀ ip, iface.IPAddresses = [ip] →
            ni.IpAddress = StringValue ip.Address ∧ ni.IpAddressFamily = StringValue ip.Family ∧
              ni.IpAddressFloating = BoolValue ip.Floating.Bool := by
  refine ⟨rfl, rfl, _, rfl, rfl, rfl, rfl, by simp, ?_⟩
  intro i iface hi
  refine ⟨setInterfaceValues iface, by simp [hi], ?_⟩
  obtain ⟨h1, h2, h3, h4, h5⟩ := foldl_setAddress_fields iface.IPAddresses
    { MacAddress := StringValue iface.MAC, Type_ := StringValue iface.Type_,
      SourceIpFiltering := BoolValue iface.SourceIPFiltering.Bool,
      Bootable := BoolValue iface.Bootable.Bool, Network := StringValue iface.Network }
  refine ⟨h1, h2, h3, h4, h5, ?_⟩
  intro ip hip
  simp [setInterfaceValues, hip, setAddress]

/-- C12 on two different tracked models and one observed server. -/
theorem setServerValues_overwrites_witness :
    (setServerValues (some (planOf [specIf "IPv6", specIf "IPv6"]))
        (some (stoppedServer twoObserved))).2 =
      (setServerValues (some { ID := StringValue "old" }) (some (stoppedServer twoObserved))).2 :=
  (setServerValues_overwrites (planOf [specIf "IPv6", specIf "IPv6"]) { ID := StringValue "old" }
    (stoppedServer twoObserved)).2.1

/-! ## The state that `Delete` writes back -/

/-- With a nil observed server `setServerValues` returns at once and leaves the model as it was. -/
theorem setServerValues_nil (d : serverModel) :
    setServerValues (some d) none = ([], some d) := rfl

theorem callDeleteServerAndStorages_log {σ : Type} (svc : Service σ) (w : World σ)
    (r : DeleteServerAndStoragesRequest) :
    (callDeleteServerAndStorages svc w r).2.log =
      w.log ++ [deleteServerEvent r.UUID (callDeleteServerAndStorages svc w r).1] := rfl

/-- C13, as stated, fails: on the server `srv` the stop call and the
delete-with-storages call succeed, and the state that `Delete` writes back
still holds the identifier `srv`, the hostname `web`, the zone `fi-hel1` and
both interfaces. -/
theorem Delete_keeps_state :
    issued (freshWorld (stoppedServer twoObserved))
        (Delete okService (freshWorld (stoppedServer twoObserved))
          { State := { value := planOf [specIf "IPv4", specIf "IPv4"] } }).2 =
        [stopEvent "srv" none, deleteServerEvent "srv" none] ∧
      (Delete okService (freshWorld (stoppedServer twoObserved))
          { State := { value := planOf [specIf "IPv4", specIf "IPv4"] } }).1 =
        { Diagnostics := [],
          State := some { ID := StringValue "srv", Hostname := StringValue "web",
                          Zone := StringValue "fi-hel1",
                          NetworkInterface := [specIf "IPv4", specIf "IPv4"] } } := by
  refine ⟨by decide, by decide⟩

/-- C13 (amended): a `Delete` whose previous state decodes without error and
whose stop call and delete-with-storages call both succeed issues these two
calls and no other, adds no diagnostic, and writes back the model it read,
unchanged: `setServerValues` is called with a nil observed server and returns
at once, so the written state still holds the identifier, the hostname, the
zone and the interface list of the deleted server. -/
theorem Delete_writes_back {σ : Type} (svc : Service σ) (w : World σ) (req : DeleteRequest)
    (hdiags : Diagnostics.HasError req.State.diags = false)
    (hstop : (callVerifyServerStopped svc w { UUID := req.State.value.ID.ValueString }).1 = none)
    (hdel : (callDeleteServerAndStorages svc
      (callVerifyServerStopped svc w { UUID := req.State.value.ID.ValueString }).2
      { UUID := req.State.value.ID.ValueString }).1 = none) :
    (Delete svc w req).1 = { Diagnostics := req.State.diags, State := some req.State.value } ∧
      (setServerValues (some req.State.value) none).2 = some req.State.value ∧
      issued w (Delete svc w req).2 =
        [stopEvent req.State.value.ID.ValueString none,
          deleteServerEvent req.State.value.ID.ValueString none] := by
  have hlog1 := callVerifyServerStopped_log svc w { UUID := req.State.value.ID.ValueString }
  unfold Delete
  rcases h1 : callVerifyServerStopped svc w (StopServerRequest.mk req.State.value.ID.ValueString)
    with ⟨r1, w1⟩
  rw [h1] at hstop hdel hlog1
  simp only at hstop hdel hlog1
  subst hstop
  have hlog2 := callDeleteServerAndStorages_log svc w1
    { UUID := req.State.value.ID.ValueString }
  rcases h2 : callDeleteServerAndStorages svc w1
    (DeleteServerAndStoragesRequest.mk req.State.value.ID.ValueString) with ⟨r2, w2⟩
  rw [h2] at hdel hlog2
  simp only at hdel hlog2
  subst hdel
  refine ⟨by simp [hdiags, h2, setServerValues_nil], rfl, ?_⟩
  simp only [hdiags, Bool.false_eq_true, if_false, h2]
  exact issued_of_log w w2
    [stopEvent req.State.value.ID.ValueString none,
      deleteServerEvent req.State.value.ID.ValueString none]
    (by rw [hlog2, hlog1]; simp)

/-- C13 (amended) on a running server with one IPv6 interface: the state
written back is the state read. -/
theorem Delete_writes_back_witness :
    (Delete okService (freshWorld startedServer)
        { State := { value := planOf [specIf "IPv6"] } }).1 =
      { Diagnostics := [], State := some (planOf [specIf "IPv6"]) } :=
  (Delete_writes_back okService (freshWorld startedServer)
    { State := { value := planOf [specIf "IPv6"] } } rfl rfl rfl).1

/-! ## The plan modifier -/

/-- C14: with a known, non-null configured value the planned value is the
configured value; with a null or unknown configured value, and both lookups
of the sibling `ip_address_family` free of errors, the planned value is the
prior state value when the family of the prior state equals the configured
family and is unknown when the two differ, so that, the prior state value
not being unknown, it is unknown exactly when they differ. -/
theorem PlanModifyString_contract (req : StringRequest) (resp : StringResponse) :
    (∀ v, req.ConfigValue = TfString.value v →
      (PlanModifyString req resp).PlanValue = req.ConfigValue) ∧
    (req.ConfigValue = TfString.null ∨ req.ConfigValue = TfString.unknown →
      Diagnostics.HasError req.StateFamily.1 = false →
      Diagnostics.HasError req.ConfigFamily.1 = false →
      (req.StateFamily.2 = req.ConfigFamily.2 →
        (PlanModifyString req resp).PlanValue = req.StateValue) ∧
      (req.StateFamily.2 ≠ req.ConfigFamily.2 →
        (PlanModifyString req resp).PlanValue = StringUnknown) ∧
      (req.StateValue ≠ TfString.unknown →
        ((PlanModifyString req resp).PlanValue = StringUnknown ↔
          req.StateFamily.2 ≠ req.ConfigFamily.2))) := by
  constructor
  · intro v hv
    simp [PlanModifyString, hv, TfString.IsNull, TfString.IsUnknown]
  · intro hcfg hs hc
    have hguard : (!req.ConfigValue.IsNull && !req.ConfigValue.IsUnknown) = false := by
      rcases hcfg with h | h <;> simp [h, TfString.IsNull, TfString.IsUnknown]
    have heq : req.StateFamily.2 = req.ConfigFamily.2 →
        (PlanModifyString req resp).PlanValue = req.StateValue := by
      intro h
      simp [PlanModifyString, hguard, hs, hc, TfString.Equal, h]
    have hne : req.StateFamily.2 ≠ req.ConfigFamily.2 →
        (PlanModifyString req resp).PlanValue = StringUnknown := by
      intro h
      simp [PlanModifyString, hguard, hs, hc, TfString.Equal, h]
    refine ⟨heq, hne, ?_⟩
    intro hsv
    constructor
    · intro hp hfam
      rw [heq hfam] at hp
      exact hsv hp
    · exact hne

/-- C14 on a computed address with no configured value: the value is kept
while the family stays `IPv4` and reset when the configured family is `IPv6`. -/
theorem PlanModifyString_contract_witness :
    (PlanModifyString (addressRequest "IPv4") { PlanValue := StringValue "10.0.0.1" }).PlanValue =
        StringValue "10.0.0.1" ∧
      (PlanModifyString (addressRequest "IPv6")
        { PlanValue := StringValue "10.0.0.1" }).PlanValue = StringUnknown :=
  ⟨((PlanModifyString_contract (addressRequest "IPv4") { PlanValue := StringValue "10.0.0.1" }).2
      (Or.inl rfl) rfl rfl).1 rfl,
    ((PlanModifyString_contract (addressRequest "IPv6") { PlanValue := StringValue "10.0.0.1" }).2
      (Or.inl rfl) rfl rfl).2.1 (by decide)⟩

/-! ## The desired interface list of a model -/

/-- C15: for a non-nil model with `n` interfaces
`buildNetworkInterfaceRequestFromServerModel` returns, without error, a list
of `n` requests in input order: the request at slice position `i` has index
`i + 1`, the server identifier of the model, the type of the interface at
position `i` and exactly one address, which carries the family of that interface. -/
theorem buildNetworkInterfaceRequest_contract (d : serverModel) :
    ∃ reqs, buildNetworkInterfaceRequestFromServerModel (some d) = .ok reqs ∧
      reqs.length = d.NetworkInterface.length ∧
      ∀ (i : Nat) (inter : networkInterfaceModel), d.NetworkInterface[i]? = some inter →
        ∃ r ip, reqs[i]? = some r ∧ r.Index = (i : Int) + 1 ∧
          r.ServerUUID = d.ID.ValueString ∧ r.Type_ = inter.Type_.ValueString ∧
          r.IPAddresses = [ip] ∧ ip.Family = inter.IpAddressFamily.ValueString := by
  refine ⟨desiredOf d, rfl, ?_, ?_⟩
  · simp [desiredOf, buildNetworkInterfaceRequestFromServerModel]
  · intro i inter hi
    have hlt : i < (desiredOf d).length := by
      obtain ⟨h, -⟩ := List.getElem?_eq_some.mp hi
      simpa [desiredOf, buildNetworkInterfaceRequestFromServerModel] using h
    have hr : (desiredOf d)[i]? = some (desiredOf d)[i] := List.getElem?_eq_getElem hlt
    obtain ⟨inter2, hi2, hreq⟩ := desiredOf_getElem? d i _ hr
    rw [hi] at hi2
    obtain rfl := Option.some.inj hi2
    refine ⟨_, CreateNetworkInterfaceIPAddress.mk inter.IpAddressFamily.ValueString
      inter.IpAddress.ValueString, hr, ?_, ?_, ?_, ?_, rfl⟩
    · rw [hreq]
    · rw [hreq]
    · rw [hreq]
    · rw [hreq]

/-- C15 on a model with the interfaces `[IPv4, IPv6]`: two requests are built. -/
theorem buildNetworkInterfaceRequest_contract_witness :
    ∃ reqs, buildNetworkInterfaceRequestFromServerModel
        (some (planOf [specIf "IPv4", specIf "IPv6"])) = .ok reqs ∧ reqs.length = 2 :=
  match buildNetworkInterfaceRequest_contract (planOf [specIf "IPv4", specIf "IPv6"]) with
  | ⟨reqs, h1, h2, _⟩ => ⟨reqs, h1, h2⟩

/-! ## A successful run against the model of the remote interfaces -/

theorem replay_append (ifs : List ServerInterface) (a b : List Event) :
    replay ifs (a ++ b) = replay (replay ifs a) b := by
  simp [replay, List.foldl_append]

/-- Successful deletes remove the interfaces with the deleted indices. -/
theorem replay_deletes (uuid : String) (dels : List Int) :
    ∀ ifs : List ServerInterface,
      replay ifs (dels.map fun k => deleteEvent uuid k none) =
        ifs.filter fun n => decide (n.Index ∉ dels) := by
  induction dels with
  | nil => intro ifs; simp [replay]
  | cons k rest ih =>
    intro ifs
    have hstep : replay ifs ((k :: rest).map fun k => deleteEvent uuid k none) =
        replay (remoteDelete ifs k) (rest.map fun k => deleteEvent uuid k none) := rfl
    rw [hstep, ih, remoteDelete, List.filter_filter]
    congr 1
    funext n
    simp only [List.mem_cons, not_or, ne_eq, Bool.decide_and, Bool.and_comm]

/-- Successful creates add the created interfaces, in order. -/
theorem replay_creates (crs : List CreateNetworkInterfaceRequest) :
    ∀ ifs : List ServerInterface,
      replay ifs (crs.map fun r => createEvent r none) = ifs ++ crs.map createdInterface := by
  induction crs with
  | nil => intro ifs; simp [replay]
  | cons r rest ih =>
    intro ifs
    have hstep : replay ifs ((r :: rest).map fun r => createEvent r none) =
        replay (remoteCreate ifs r) (rest.map fun r => createEvent r none) := rfl
    rw [hstep, ih, remoteCreate]
    simp

/-- The remote interfaces after the fetch, the deletes and a first part of the creates. -/
theorem replay_run (uuid : String) (dels : List Int) (crs : List CreateNetworkInterfaceRequest)
    (ifs : List ServerInterface) :
    replay ifs (getEvent uuid none ::
      ((dels.map fun k => deleteEvent uuid k none) ++ crs.map fun r => createEvent r none)) =
      (ifs.filter fun n => decide (n.Index ∉ dels)) ++ crs.map createdInterface := by
  have hstep : replay ifs (getEvent uuid none ::
      ((dels.map fun k => deleteEvent uuid k none) ++ crs.map fun r => createEvent r none)) =
      replay ifs ((dels.map fun k => deleteEvent uuid k none) ++
        crs.map fun r => createEvent r none) := rfl
  rw [hstep, replay_append, replay_deletes, replay_creates]

/-- The keys of the map after the first loop, started on the empty map. -/
theorem preservePlan_empty_isSome (reqs : List CreateNetworkInterfaceRequest) (k : Int)
    (obs : List ServerInterface) :
    (preservePlan reqs 0 obs IntBoolMap.empty k).isSome = true ↔
      ∃ (p : Nat) (n : ServerInterface),
        obs[p]? = some n ∧ equalsAt reqs p n = true ∧ n.Index = k := by
  rw [preservePlan_isSome]
  simp [IntBoolMap.empty]

/-- With pairwise distinct observed indices, the interfaces that survive the
deletes are those that pass the loop condition at their slice position. -/
theorem mem_kept_iff (reqs : List CreateNetworkInterfaceRequest) (obs : List ServerInterface)
    (hd : (obs.map fun n => n.Index).Nodup) (n : ServerInterface) :
    n ∈ obs.filter (fun n => decide (n.Index ∉ flushPlan reqs 0 obs)) ↔
      ∃ p : Nat, obs[p]? = some n ∧ equalsAt reqs p n = true := by
  simp only [List.mem_filter, decide_eq_true_eq, mem_flushPlan, Nat.zero_add]
  constructor
  · rintro ⟨hn, hno⟩
    obtain ⟨p, hp⟩ := List.mem_iff_getElem?.mp hn
    refine ⟨p, hp, ?_⟩
    by_contra hq
    exact hno ⟨p, n, hp, by simpa using hq, rfl⟩
  · rintro ⟨p, hp, hq⟩
    refine ⟨List.getElem?_mem hp, ?_⟩
    rintro ⟨p2, n2, hp2, he2, hk2⟩
    obtain ⟨hpp, hnn⟩ := index_position obs hd p2 p n2 n hp2 hp hk2
    subst hpp
    subst hnn
    rw [hq] at he2
    exact absurd he2 (by simp)

/-- A desired list that carries the indices 1..N has pairwise distinct indices. -/
theorem desired_indices_nodup (reqs : List CreateNetworkInterfaceRequest)
    (hidx : ∀ (q : Nat) (r : CreateNetworkInterfaceRequest),
      reqs[q]? = some r → r.Index = (q : Int) + 1) :
    (reqs.map fun r => r.Index).Nodup := by
  rw [List.nodup_iff_getElem?_ne_getElem?]
  intro i j hij hj
  simp only [List.length_map] at hj
  have hi : reqs[i]? = some reqs[i] := List.getElem?_eq_getElem (by omega)
  have hj2 : reqs[j]? = some reqs[j] := List.getElem?_eq_getElem hj
  simp only [List.getElem?_map, hi, hj2, Option.map_some', ne_eq, Option.some.injEq]
  rw [hidx i _ hi, hidx j _ hj2]
  omega

/-- The created interfaces have pairwise distinct indices. -/
theorem applyPlan_indices_nodup (m : IntBoolMap) (reqs : List CreateNetworkInterfaceRequest)
    (hidx : ∀ (q : Nat) (r : CreateNetworkInterfaceRequest),
      reqs[q]? = some r → r.Index = (q : Int) + 1) :
    ((applyPlan m reqs).map fun r => r.Index).Nodup :=
  List.Nodup.sublist ((List.filter_sublist reqs).map _) (desired_indices_nodup reqs hidx)

/-- A successful create in the log of a successful run splits the creates of the run. -/
theorem split_at_create (uuid : String) (dels : List Int)
    (crs : List CreateNetworkInterfaceRequest) (pre post : List Event)
    (r : CreateNetworkInterfaceRequest)
    (h : getEvent uuid none ::
      ((dels.map fun k => deleteEvent uuid k none) ++ crs.map fun q => createEvent q none) =
      pre ++ createEvent r none :: post) :
    ∃ c1 c2, crs = c1 ++ r :: c2 ∧
      pre = getEvent uuid none ::
        ((dels.map fun k => deleteEvent uuid k none) ++ c1.map fun q => createEvent q none) := by
  have hcons : getEvent uuid none ::
      ((dels.map fun k => deleteEvent uuid k none) ++ crs.map fun q => createEvent q none) =
      (getEvent uuid none :: (dels.map fun k => deleteEvent uuid k none)) ++
        crs.map fun q => createEvent q none := rfl
  rw [hcons] at h
  have hinj : ∀ a b : CreateNetworkInterfaceRequest,
      createEvent a none = createEvent b none → a = b := by
    intro a b hab
    simpa [createEvent] using hab
  rcases List.append_eq_append_iff.mp h with ⟨a, hpre, hy⟩ | ⟨c, hx, hy⟩
  · obtain ⟨c1, c2, hcrs, h1, h2⟩ := List.map_eq_append_iff.mp hy
    obtain ⟨r2, c3, hc2, hr2, -⟩ := List.map_eq_cons_iff.mp h2
    obtain rfl := hinj _ _ hr2
    refine ⟨c1, c3, by rw [hcrs, hc2], ?_⟩
    rw [hpre, ← h1]
    rfl
  · rcases c with _ | ⟨x, c⟩
    · simp only [List.nil_append] at hy
      obtain ⟨r2, c3, hc2, hr2, -⟩ := List.map_eq_cons_iff.mp hy.symm
      obtain rfl := hinj _ _ hr2
      refine ⟨[], c3, by rw [hc2]; rfl, ?_⟩
      simp only [List.append_nil] at hx
      rw [← hx]
      simp
    · simp only [List.cons_append, List.cons.injEq] at hy
      obtain ⟨rfl, -⟩ := hy
      have hmem : createEvent r none ∈
          getEvent uuid none :: (dels.map fun k => deleteEvent uuid k none) := by
        rw [hx]
        simp
      simp only [List.mem_cons, List.mem_map] at hmem
      rcases hmem with hm | ⟨k, -, hm⟩
      · simp [createEvent, getEvent] at hm
      · simp [createEvent, deleteEvent] at hm

/-- The desired interfaces that a successful run creates. -/
theorem mem_applyPlan_iff (reqs : List CreateNetworkInterfaceRequest)
    (obs : List ServerInterface) (r : CreateNetworkInterfaceRequest) :
    r ∈ applyPlan (preservePlan reqs 0 obs IntBoolMap.empty) reqs ↔
      r ∈ reqs ∧ ¬ ∃ (p : Nat) (n : ServerInterface),
        obs[p]? = some n ∧ equalsAt reqs p n = true ∧ n.Index = r.Index := by
  simp only [applyPlan, List.mem_filter, Bool.not_eq_true_eq_eq_false, Bool.not_eq_true']
  rw [← Bool.not_eq_true, preservePlan_empty_isSome]

/-- The remote interfaces after a successful run: the kept observed
interfaces followed by the created ones. -/
theorem replay_successLog (uuid : String) (reqs : List CreateNetworkInterfaceRequest)
    (obs : List ServerInterface) :
    replay obs (successLog uuid reqs obs) =
      (obs.filter fun n => decide (n.Index ∉ flushPlan reqs 0 obs)) ++
        (applyPlan (preservePlan reqs 0 obs IntBoolMap.empty) reqs).map createdInterface :=
  replay_run uuid _ _ obs

/-- The indices on the remote server after a successful run, with pairwise
distinct observed indices and a desired list carrying the indices 1..N. -/
theorem mem_final_indices (uuid : String) (reqs : List CreateNetworkInterfaceRequest)
    (obs : List ServerInterface) (hd : (obs.map fun n => n.Index).Nodup)
    (hidx : ∀ (q : Nat) (r : CreateNetworkInterfaceRequest),
      reqs[q]? = some r → r.Index = (q : Int) + 1) (k : Int) :
    k ∈ (replay obs (successLog uuid reqs obs)).map (fun n => n.Index) ↔
      ∃ q : Nat, q < reqs.length ∧ k = (q : Int) + 1 := by
  rw [replay_successLog]
  simp only [List.map_append, List.mem_append, List.mem_map, List.map_map]
  constructor
  · rintro (⟨n, hn, rfl⟩ | ⟨r, hr, rfl⟩)
    · obtain ⟨p, hp, hq⟩ := (mem_kept_iff reqs obs hd n).mp hn
      obtain ⟨r, hr, he⟩ := (equalsAt_true_iff reqs p n).mp hq
      obtain ⟨hlt, -⟩ := List.getElem?_eq_some.mp hr
      refine ⟨p, hlt, ?_⟩
      rw [((interfacesEquals_true_iff n r).mp he).2.1, hidx p r hr]
    · obtain ⟨hmem, -⟩ := (mem_applyPlan_iff reqs obs r).mp hr
      obtain ⟨q, hq⟩ := List.mem_iff_getElem?.mp hmem
      obtain ⟨hlt, -⟩ := List.getElem?_eq_some.mp hq
      exact ⟨q, hlt, hidx q r hq⟩
  · rintro ⟨q, hlt, rfl⟩
    have hq : reqs[q]? = some reqs[q] := List.getElem?_eq_getElem hlt
    have hqi := hidx q _ hq
    by_cases hkept : ∃ (p : Nat) (n : ServerInterface),
        obs[p]? = some n ∧ equalsAt reqs p n = true ∧ n.Index = reqs[q].Index
    · obtain ⟨p, n, hp, he, hk⟩ := hkept
      exact Or.inl ⟨n, (mem_kept_iff reqs obs hd n).mpr ⟨p, hp, he⟩, by rw [hk, hqi]⟩
    · exact Or.inr ⟨reqs[q], (mem_applyPlan_iff reqs obs _).mpr ⟨List.getElem?_mem hq, hkept⟩,
        hqi⟩

/-- The remote server holds no index twice after a successful run. -/
theorem final_indices_nodup (uuid : String) (reqs : List CreateNetworkInterfaceRequest)
    (obs : List ServerInterface) (hd : (obs.map fun n => n.Index).Nodup)
    (hidx : ∀ (q : Nat) (r : CreateNetworkInterfaceRequest),
      reqs[q]? = some r → r.Index = (q : Int) + 1) :
    ((replay obs (successLog uuid reqs obs)).map fun n => n.Index).Nodup := by
  rw [replay_successLog, List.map_append, List.map_map]
  refine List.Nodup.append (List.Nodup.sublist ((List.filter_sublist obs).map _) hd)
    (applyPlan_indices_nodup _ reqs hidx) ?_
  rw [List.disjoint_left]
  intro k hk1 hk2
  simp only [List.mem_map, Function.comp] at hk1 hk2
  obtain ⟨n, hn, rfl⟩ := hk1
  obtain ⟨r, hr, hrk⟩ := hk2
  obtain ⟨p, hp, hq⟩ := (mem_kept_iff reqs obs hd n).mp hn
  exact ((mem_applyPlan_iff reqs obs r).mp hr).2 ⟨p, n, hp, hq, hrk.symm⟩

/-- C16: the remote interfaces are followed through the log by `replay` (a
successful delete removes the interface with the index, a successful create
adds one).  For a run that returns no error on a server whose observed
interfaces have pairwise distinct indices, towards a desired list carrying
the indices 1..N: the server was stopped; the log is the fetch, then the
deletes, then the creates; no create is issued for an index that is on the
remote server at that moment; afterwards the remote server holds exactly
the indices 1..N, each once; and every interface it holds is either an
observed interface that no call touched and that is equal, under
`interfacesEquals`, to the desired interface with its index, or the
interface created for the desired interface with its index. -/
theorem reconfigure_remote_model {σ : Type} (svc : Service σ) (w w2 : World σ)
    (data : serverModel) (reqs : List CreateNetworkInterfaceRequest) (s : ServerDetails)
    (hget : (svc.GetServerDetails w.remote { UUID := data.ID.ValueString }).1 = .ok s)
    (hrun : reconfigureServerNetworkInterfaces svc w data reqs = (none, w2))
    (hdistinct : (s.Networking.Interfaces.map fun n => n.Index).Nodup)
    (hidx : ∀ (q : Nat) (r : CreateNetworkInterfaceRequest),
      reqs[q]? = some r → r.Index = (q : Int) + 1) :
    s.State = ServerStateStopped ∧
    (∃ (dels : List Int) (crs : List CreateNetworkInterfaceRequest),
      issued w w2 = getEvent data.ID.ValueString none ::
        ((dels.map fun k => deleteEvent data.ID.ValueString k none) ++
          crs.map fun r => createEvent r none)) ∧
    (∀ (pre post : List Event) (r : CreateNetworkInterfaceRequest),
      issued w w2 = pre ++ createEvent r none :: post →
      r.Index ∉ (replay s.Networking.Interfaces pre).map fun n => n.Index) ∧
    ((replay s.Networking.Interfaces (issued w w2)).map fun n => n.Index).Nodup ∧
    (∀ k : Int, k ∈ (replay s.Networking.Interfaces (issued w w2)).map (fun n => n.Index) ↔
      ∃ q : Nat, q < reqs.length ∧ k = (q : Int) + 1) ∧
    (∀ n ∈ replay s.Networking.Interfaces (issued w w2),
      ∃ (q : Nat) (r : CreateNetworkInterfaceRequest), reqs[q]? = some r ∧
        n.Index = (q : Int) + 1 ∧
        ((n ∈ s.Networking.Interfaces ∧ interfacesEquals n r = true ∧
            ∀ ev ∈ issued w w2, ¬ ev.isDeleteOf n.Index ∧ ¬ ev.isCreateOf n.Index) ∨
          (n = createdInterface r ∧ createEvent r none ∈ issued w w2))) := by
  obtain ⟨s2, hs2, hst, hlog⟩ := reconfigure_ok svc w w2 data reqs hrun
  have hss : s2 = s := by
    rw [hget] at hs2
    exact (Except.ok.inj hs2).symm
  subst hss
  have hiss := issued_of_log w w2 _ hlog
  rw [hiss]
  refine ⟨hst, ⟨_, _, rfl⟩, ?_, final_indices_nodup _ reqs _ hdistinct hidx,
    mem_final_indices _ reqs _ hdistinct hidx, ?_⟩
  · intro pre post r hsplit
    obtain ⟨c1, c2, hcrs, hpre⟩ := split_at_create _ _ _ pre post r hsplit
    have hr : r ∈ applyPlan (preservePlan reqs 0 s2.Networking.Interfaces IntBoolMap.empty)
        reqs := by
      rw [hcrs]
      simp
    have hnd := applyPlan_indices_nodup
      (preservePlan reqs 0 s2.Networking.Interfaces IntBoolMap.empty) reqs hidx
    rw [hcrs, List.map_append, List.map_cons, List.nodup_middle, List.nodup_cons] at hnd
    rw [hpre, replay_run]
    simp only [List.map_append, List.mem_append, List.mem_map, List.map_map, not_or]
    constructor
    · rintro ⟨n, hn, hk⟩
      obtain ⟨p, hp, hq⟩ := (mem_kept_iff reqs _ hdistinct n).mp hn
      exact ((mem_applyPlan_iff reqs _ r).mp hr).2 ⟨p, n, hp, hq, hk⟩
    · rintro ⟨q, hq, hk⟩
      apply hnd.1
      simp only [List.mem_append, List.mem_map]
      exact Or.inl ⟨q, hq, hk⟩
  · intro n hn
    rw [replay_successLog, List.mem_append, List.mem_map] at hn
    rcases hn with hn | ⟨r, hr, rfl⟩
    · obtain ⟨p, hp, hq⟩ := (mem_kept_iff reqs _ hdistinct n).mp hn
      obtain ⟨r, hr, he⟩ := (equalsAt_true_iff reqs p n).mp hq
      have hni : n.Index = (p : Int) + 1 := by
        rw [((interfacesEquals_true_iff n r).mp he).2.1, hidx p r hr]
      refine ⟨p, r, hr, hni, Or.inl ⟨List.getElem?_mem hp, he, ?_⟩⟩
      intro ev hev
      constructor
      · intro hdel
        have hk := (successLog_isDeleteOf data.ID.ValueString reqs _ n.Index).mp ⟨ev, hev, hdel⟩
        have := (List.mem_filter.mp hn).2
        simp only [decide_eq_true_eq] at this
        exact this hk
      · intro hc
        obtain ⟨r2, -, -, hpres⟩ :=
          (successLog_isCreateOf data.ID.ValueString reqs _ n.Index).mp ⟨ev, hev, hc⟩
        have hsome := (preservePlan_empty_isSome reqs n.Index s2.Networking.Interfaces).mpr
          ⟨p, n, hp, hq, rfl⟩
        rw [hsome] at hpres
        exact absurd hpres (by simp)
    · obtain ⟨hmem, -⟩ := (mem_applyPlan_iff reqs _ r).mp hr
      obtain ⟨q, hq⟩ := List.mem_iff_getElem?.mp hmem
      refine ⟨q, r, hq, hidx q r hq, Or.inr ⟨rfl, ?_⟩⟩
      simp only [successLog, List.mem_cons, List.mem_append, List.mem_map]
      exact Or.inr (Or.inr ⟨r, hr, rfl⟩)

/-- C16 on observed interfaces 2 and 3 against three desired interfaces, run
against the model of the remote interfaces: the remote state that the
service holds after the run is the one `replay` computes, it holds the
indices 1, 2, 3, and the log is the fetch, the deletes, then the creates. -/
theorem reconfigure_remote_model_witness :
    (modelRun shiftedObserved [specIf "IPv4", specIf "IPv4", specIf "IPv4"]).2.remote.Networking.Interfaces =
        replay shiftedObserved (issued (freshWorld (stoppedServer shiftedObserved))
          (modelRun shiftedObserved [specIf "IPv4", specIf "IPv4", specIf "IPv4"]).2) ∧
      (replay shiftedObserved (issued (freshWorld (stoppedServer shiftedObserved))
          (modelRun shiftedObserved [specIf "IPv4", specIf "IPv4", specIf "IPv4"]).2)).map
        (fun n => n.Index) = [1, 2, 3] ∧
      ((replay shiftedObserved (issued (freshWorld (stoppedServer shiftedObserved))
          (modelRun shiftedObserved [specIf "IPv4", specIf "IPv4", specIf "IPv4"]).2)).map
        fun n => n.Index).Nodup ∧
      ∃ (dels : List Int) (crs : List CreateNetworkInterfaceRequest),
        issued (freshWorld (stoppedServer shiftedObserved))
          (modelRun shiftedObserved [specIf "IPv4", specIf "IPv4", specIf "IPv4"]).2 =
          getEvent "srv" none ::
            ((dels.map fun k => deleteEvent "srv" k none) ++ crs.map fun r => createEvent r none) :=
  ⟨by decide, by decide,
    (reconfigure_remote_model modelService (freshWorld (stoppedServer shiftedObserved))
      (modelRun shiftedObserved [specIf "IPv4", specIf "IPv4", specIf "IPv4"]).2
      (planOf [specIf "IPv4", specIf "IPv4", specIf "IPv4"])
      (desiredOf (planOf [specIf "IPv4", specIf "IPv4", specIf "IPv4"]))
      (stoppedServer shiftedObserved) rfl (Prod.ext (by decide) rfl) (by decide)
      (fun q r h => desiredOf_index _ q r h)).2.2.2.1,
    (reconfigure_remote_model modelService (freshWorld (stoppedServer shiftedObserved))
      (modelRun shiftedObserved [specIf "IPv4", specIf "IPv4", specIf "IPv4"]).2
      (planOf [specIf "IPv4", specIf "IPv4", specIf "IPv4"])
      (desiredOf (planOf [specIf "IPv4", specIf "IPv4", specIf "IPv4"]))
      (stoppedServer shiftedObserved) rfl (Prod.ext (by decide) rfl) (by decide)
      (fun q r h => desiredOf_index _ q r h)).2.1⟩

end Server
